import Mathlib

/-!
Verification of the color-call pixel-analysis pipeline.

This file gives a shallow embedding, in Lean 4, of the core analysis
functions of the color-call repository (color quantization via k-means,
composition scoring, color-harmony classification, zone-system mapping,
visual-weight analysis, cinematographer style matching, and color
utilities), and proves or refutes the frozen behavioural claims about it.

Modelling conventions:
- JavaScript numbers are modelled as exact rationals (`ℚ`); integer-valued
  results (`Math.round`, counts) as `ℤ`/`ℕ`.
- `Math.round` is `jsRound` below (round half toward positive infinity).
- `colorDistance` in the source is a Euclidean `Math.sqrt`.  Every use in
  the source compares a distance against another distance or a constant
  threshold, so the embedding uses the squared distance
  (`colorDistanceSq`) and squares every threshold; the comparisons are
  order-isomorphic to the source's.
- JavaScript divisions that can produce `NaN`/`Infinity` (denominator 0)
  are modelled with `Option ℚ` (`none` = not a number).
- `Array.prototype.sort` with a numeric comparator is a stable sort; it is
  modelled with `List.mergeSort` on the comparator's `≤`-relation.
-/

set_option maxRecDepth 4000

/-- JavaScript `Math.round`: round half toward positive infinity. -/
def jsRound (q : ℚ) : ℤ := ⌊q + 1/2⌋

/-- Squared Euclidean RGB distance.  The source's `colorDistance` is the
square root of this; all comparisons in the source are against other
distances or constant thresholds, so comparing squares is equivalent. -/
def colorDistanceSq (rgb1 rgb2 : ℚ × ℚ × ℚ) : ℚ :=
  (rgb1.1 - rgb2.1) ^ 2 + (rgb1.2.1 - rgb2.2.1) ^ 2 + (rgb1.2.2 - rgb2.2.2) ^ 2

/-- Lowercase hexadecimal digit character, as produced by JavaScript
`Number.prototype.toString(16)`. -/
def hexDigitChar (d : ℕ) : Char :=
  if d < 10 then Char.ofNat (48 + d) else Char.ofNat (87 + d)

/-- Hexadecimal digit list of a natural number, most significant first,
as produced by `n.toString(16)` (single digit `"0"` for `n = 0`). -/
def natToHexDigits (n : ℕ) : List Char :=
  if _h : n < 16 then [hexDigitChar n]
  else natToHexDigits (n / 16) ++ [hexDigitChar (n % 16)]
  decreasing_by exact Nat.div_lt_self (by omega) (by omega)

/-- The inner `toHex` of `rgbToHex`: hex digits of the channel, padded on
the left with `'0'` to two characters.  (`Math.round` of the integer
channel values considered here is the identity.) -/
def toHexPadded (n : ℕ) : List Char :=
  let hex := natToHexDigits n
  if hex.length = 1 then '0' :: hex else hex

/-- The source's `rgbToHex`: `#`-prefixed concatenation of the three
channel hex pairs, uppercased.  JavaScript `toUpperCase` is modelled by
mapping `Char.toUpper` over the characters. -/
def rgbToHex (r g b : ℕ) : String :=
  String.mk (('#' :: (toHexPadded r ++ toHexPadded g ++ toHexPadded b)).map Char.toUpper)

/-- Character class `[a-f\d]` of the source's regular expression with the
`i` flag: a hexadecimal digit in either case. -/
def isHexDigitChar (c : Char) : Bool :=
  ('0' ≤ c && c ≤ '9') || ('a' ≤ c && c ≤ 'f') || ('A' ≤ c && c ≤ 'F')

/-- Numeric value of a hexadecimal digit character (`parseInt` base 16). -/
def hexCharVal (c : Char) : ℕ :=
  if '0' ≤ c ∧ c ≤ '9' then c.toNat - 48
  else if 'a' ≤ c ∧ c ≤ 'f' then c.toNat - 87
  else c.toNat - 55

/-- The source's `hexToRgb`: match an optional leading `#` followed by
exactly three pairs of hexadecimal digits; `none` models the `null`
returned when the regular expression does not match. -/
def hexToRgb (s : String) : Option (ℕ × ℕ × ℕ) :=
  let cs := s.data
  let body := match cs with
    | '#' :: rest => rest
    | rest => rest
  match body with
  | [c1, c2, c3, c4, c5, c6] =>
      if isHexDigitChar c1 && isHexDigitChar c2 && isHexDigitChar c3 &&
         isHexDigitChar c4 && isHexDigitChar c5 && isHexDigitChar c6 then
        some (16 * hexCharVal c1 + hexCharVal c2,
              16 * hexCharVal c3 + hexCharVal c4,
              16 * hexCharVal c5 + hexCharVal c6)
      else none
  | _ => none

/-- The source's `rgbToHsl`: convert an RGB triple (0–255 scale) to
rounded hue (0–360), saturation (0–100) and lightness (0–100). -/
def rgbToHsl (rgb : ℚ × ℚ × ℚ) : ℤ × ℤ × ℤ :=
  let r := rgb.1 / 255
  let g := rgb.2.1 / 255
  let b := rgb.2.2 / 255
  let mx := max r (max g b)
  let mn := min r (min g b)
  let l := (mx + mn) / 2
  if mx = mn then
    (jsRound 0, jsRound 0, jsRound (l * 100))
  else
    let d := mx - mn
    let s := if l > 1/2 then d / (2 - mx - mn) else d / (mx + mn)
    let h :=
      if mx = r then ((g - b) / d + (if g < b then 6 else 0)) / 6
      else if mx = g then ((b - r) / d + 2) / 6
      else ((r - g) / d + 4) / 6
    (jsRound (h * 360), jsRound (s * 100), jsRound (l * 100))

/-! ## Composition scorer (`calculateCompositionScore`) -/

/-- A quantized color swatch as produced by `kMeans`. -/
structure ColorSwatch where
  rgb : ℤ × ℤ × ℤ
  hex : String
  percentage : ℚ
  count : ℕ
deriving Repr, DecidableEq

/-- One per-swatch deviation entry of the composition score.  The
display-only `deviationFormatted` string (floating-point `toFixed`
formatting) is not modelled; no claim refers to it. -/
structure DeviationEntry where
  color : ColorSwatch
  target : ℚ
  deviation : ℚ
  withinTolerance : Bool
deriving Repr, DecidableEq

/-- Result of `calculateCompositionScore`.  The sentinel branch of the
source returns an object without `verdictDescription`/`totalDeviation`
fields; those are `none` here. -/
structure CompositionScore where
  score : ℤ
  verdict : String
  verdictDescription : Option String
  deviations : List DeviationEntry
  totalDeviation : Option ℚ
deriving Repr, DecidableEq

/-- The fixed 60/30/10 target distribution. -/
def compositionTargets : List ℚ := [60, 30, 10]

/-- Total absolute deviation of the top three swatches from the targets. -/
def totalDeviationOf (colors : List ColorSwatch) : ℚ :=
  (((colors.take 3).zip compositionTargets).map
    (fun ct => |ct.1.percentage - ct.2|)).sum

/-- The source's `calculateCompositionScore` (60/30/10 variant). -/
def calculateCompositionScore (colors : List ColorSwatch) : CompositionScore :=
  if colors.length < 3 then
    { score := 0, verdict := "Insufficient colors", verdictDescription := none,
      deviations := [], totalDeviation := none }
  else
    let topThree := colors.take 3
    let deviations := (topThree.zip compositionTargets).map (fun ct =>
      { color := ct.1, target := ct.2, deviation := ct.1.percentage - ct.2,
        withinTolerance := decide (|ct.1.percentage - ct.2| ≤ 10) })
    let totalDeviation := totalDeviationOf colors
    let score := max 0 (min 100 (jsRound (100 - totalDeviation * (77/100))))
    let verdictPair : String × String :=
      if 85 ≤ score then ("Textbook", "Classic balanced composition")
      else if 70 ≤ score then ("Harmonious", "Well-balanced with intentional variation")
      else if 50 ≤ score then ("Expressive", "Creative departure from convention")
      else ("Bold", "Deliberately unconventional palette")
    { score := score, verdict := verdictPair.1,
      verdictDescription := some verdictPair.2,
      deviations := deviations, totalDeviation := some totalDeviation }

/-- Concrete swatch lists used by the composition-scorer claims. -/
def c3Swatches : List ColorSwatch :=
  [{ rgb := (0, 0, 0), hex := "#000000", percentage := 60, count := 60 },
   { rgb := (10, 10, 10), hex := "#0A0A0A", percentage := 30, count := 30 },
   { rgb := (20, 20, 20), hex := "#141414", percentage := 10, count := 10 }]

/-- Swatch list with percentages 60.1 / 30 / 10: a small nonzero deviation
that still rounds to a perfect score. -/
def c3CounterSwatches : List ColorSwatch :=
  [{ rgb := (0, 0, 0), hex := "#000000", percentage := 601/10, count := 601 },
   { rgb := (10, 10, 10), hex := "#0A0A0A", percentage := 30, count := 300 },
   { rgb := (20, 20, 20), hex := "#141414", percentage := 10, count := 99 }]

/-- Swatch list with percentages 33 / 33 / 34 (the claim C4 scenario). -/
def c4Swatches : List ColorSwatch :=
  [{ rgb := (0, 0, 0), hex := "#000000", percentage := 33, count := 33 },
   { rgb := (10, 10, 10), hex := "#0A0A0A", percentage := 33, count := 33 },
   { rgb := (20, 20, 20), hex := "#141414", percentage := 34, count := 34 }]

/-- Coerce an integer RGB pixel to a rational triple. -/
def pixq (p : ℕ × ℕ × ℕ) : ℚ × ℚ × ℚ := ((p.1 : ℚ), (p.2.1 : ℚ), (p.2.2 : ℚ))

/-- Inner loop of the source's `assignClusters` callback: scan the
centroids keeping the index of the closest one.  `minDist = none` models
the initial `Infinity`. -/
def assignClusterAux (p : ℚ × ℚ × ℚ) :
    List (ℚ × ℚ × ℚ) → ℕ → Option ℚ → ℕ → ℕ
  | [], _, _, best => best
  | c :: rest, i, minDist, best =>
    let d := colorDistanceSq p c
    match minDist with
    | none => assignClusterAux p rest (i + 1) (some d) i
    | some m =>
      if d < m then assignClusterAux p rest (i + 1) (some d) i
      else assignClusterAux p rest (i + 1) minDist best

/-- Index of the nearest centroid to a pixel (the source's per-pixel
closure in `assignClusters`). -/
def assignCluster (centroids : List (ℚ × ℚ × ℚ)) (p : ℚ × ℚ × ℚ) : ℕ :=
  assignClusterAux p centroids 0 none 0

/-- The source's `assignClusters`. -/
def assignClusters (pixels : List (ℕ × ℕ × ℕ)) (centroids : List (ℚ × ℚ × ℚ)) : List ℕ :=
  pixels.map (fun px => assignCluster centroids (pixq px))

/-- Pixels assigned to cluster `j` (the per-cluster `sums`/`counts`
accumulation of the source's `updateCentroids`). -/
def clusterMembers (pixels : List (ℕ × ℕ × ℕ)) (assignments : List ℕ) (j : ℕ) :
    List (ℕ × ℕ × ℕ) :=
  ((pixels.zip assignments).filter (fun pa => pa.2 == j)).map (fun pa => pa.1)

/-- The source's `updateCentroids`: per-cluster channel sums divided by
`counts[idx] || 1` — a cluster with zero assigned pixels divides its zero
sums by the substituted count 1. -/
def updateCentroids (pixels : List (ℕ × ℕ × ℕ)) (assignments : List ℕ) (k : ℕ) :
    List (ℚ × ℚ × ℚ) :=
  (List.range k).map (fun j =>
    let assigned := clusterMembers pixels assignments j
    let count : ℚ := if assigned.length = 0 then 1 else (assigned.length : ℚ)
    ((assigned.map (fun p => (p.1 : ℚ))).sum / count,
     (assigned.map (fun p => (p.2.1 : ℚ))).sum / count,
     (assigned.map (fun p => (p.2.2 : ℚ))).sum / count))

/-- Concrete loop state for the C2 counterexample: one pixel, two
centroids; cluster 1 receives no pixels. -/
def c2Pixels : List (ℕ × ℕ × ℕ) := [(10, 10, 10)]

/-- Previous centroid positions for the C2 counterexample. -/
def c2Centroids : List (ℚ × ℚ × ℚ) := [(10, 10, 10), (200, 200, 200)]

/-- Input color record for the harmony classifier; only `rgb` (and, for
the claims' phrasing, coverage) is read. -/
structure HColor where
  rgb : ℚ × ℚ × ℚ
  percentage : ℚ
deriving Repr, DecidableEq

/-- The source's `hueDifference`: normalize a hue difference to 0–180
(shorter arc around the circle). -/
def hueDifference (h1 h2 : ℤ) : ℤ :=
  let diff := |h1 - h2|
  if diff > 180 then 360 - diff else diff

/-- The source's `huesMatch`. -/
def huesMatch (h1 h2 tolerance : ℤ) : Bool :=
  decide (hueDifference h1 h2 ≤ tolerance)

/-- The top (at most three) colors paired with their HSL conversions. -/
def topHslColors (colors : List HColor) : List (HColor × (ℤ × ℤ × ℤ)) :=
  (colors.take 3).map (fun c => (c, rgbToHsl c.rgb))

/-- Hues of the top colors. -/
def topHues (colors : List HColor) : List ℤ :=
  (topHslColors colors).map (fun c => c.2.1)

/-- Saturations of the top colors. -/
def topSaturations (colors : List HColor) : List ℤ :=
  (topHslColors colors).map (fun c => c.2.2.1)

/-- Average saturation of the top colors. -/
def avgSaturationOf (colors : List HColor) : ℚ :=
  ((topSaturations colors).map (fun s => (s : ℚ))).sum / (topSaturations colors).length

/-- JavaScript `Math.max(...list)` for a nonempty list (the classifier
only evaluates it with at least two hues; the empty case, `-Infinity` in
JavaScript, is unreachable and mapped to 0). -/
def jsMaxInt : List ℤ → ℤ
  | [] => 0
  | h :: t => t.foldl max h

/-- JavaScript `Math.min(...list)` under the same proviso. -/
def jsMinInt : List ℤ → ℤ
  | [] => 0
  | h :: t => t.foldl min h

/-- The classifier's `hueSpread`. -/
def hueSpreadOf (colors : List HColor) : ℤ :=
  jsMaxInt (topHues colors) - jsMinInt (topHues colors)

/-- The classifier's `primaryHue` (hue of the dominant color). -/
def primaryHueOf (colors : List HColor) : ℤ :=
  (topHues colors).headD 0

/-- Hues of the non-dominant top colors. -/
def secondaryHues (colors : List HColor) : List ℤ :=
  (topHues colors).drop 1

/-- The complementary test: some secondary hue whose distance from the
primary is within 30 of 180 (`huesMatch(hueDifference(...), 180, 30)`). -/
def complementaryCheck (colors : List HColor) : Bool :=
  (secondaryHues colors).any (fun h =>
    huesMatch (hueDifference (primaryHueOf colors) h) 180 30)

/-- The triadic test (requires three hues; all pairwise distances within
30 of 120). -/
def triadicCheck (colors : List HColor) : Bool :=
  match topHues colors with
  | h0 :: h1 :: h2 :: _ =>
      huesMatch (hueDifference h0 h1) 120 30 && huesMatch (hueDifference h1 h2) 120 30 &&
        huesMatch (hueDifference h0 h2) 120 30
  | _ => false

/-- The split-complementary test. -/
def splitComplementaryCheck (colors : List HColor) : Bool :=
  (secondaryHues colors).any (fun h =>
    huesMatch (hueDifference (primaryHueOf colors) h) 150 20 ||
      huesMatch (hueDifference (primaryHueOf colors) h) 210 20)

/-- The analogous test: every secondary hue within 60 of the primary. -/
def analogousCheck (colors : List HColor) : Bool :=
  decide (((secondaryHues colors).filter
      (fun h => decide (hueDifference (primaryHueOf colors) h ≤ 60))).length ≥
    (topHues colors).length - 1)

/-- The tetradic test. -/
def tetradicCheck (colors : List HColor) : Bool :=
  match topHues colors with
  | h0 :: h1 :: h2 :: _ =>
      huesMatch (hueDifference h0 h1) 90 20 || huesMatch (hueDifference h0 h2) 90 20
  | _ => false

/-- Output record of `analyzeColorHarmony`.  The fewer-than-two-colors
branch of the source returns an object without a `colors` field (`none`
here). -/
structure HarmonyResult where
  type : String
  score : ℕ
  description : String
  colors : Option (List (HColor × (ℤ × ℤ × ℤ)))
deriving Repr, DecidableEq

/-- The source's `analyzeColorHarmony`: priority-ordered classification
of the top three colors' hue relationships. -/
def analyzeColorHarmony (colors : List HColor) : HarmonyResult :=
  if colors.length < 2 then
    { type := "Monochromatic", score := 100, description := "Single color dominates",
      colors := none }
  else if avgSaturationOf colors < 15 then
    { type := "Achromatic", score := 85, description := "Neutral palette with minimal color",
      colors := some (topHslColors colors) }
  else if hueSpreadOf colors < 20 ∨ hueSpreadOf colors > 340 then
    { type := "Monochromatic", score := 90, description := "Variations of a single hue",
      colors := some (topHslColors colors) }
  else if complementaryCheck colors then
    { type := "Complementary", score := 95,
      description := "Opposite colors create dynamic contrast",
      colors := some (topHslColors colors) }
  else if triadicCheck colors then
    { type := "Triadic", score := 92, description := "Three colors equally spaced on the wheel",
      colors := some (topHslColors colors) }
  else if splitComplementaryCheck colors then
    { type := "Split-Complementary", score := 88,
      description := "Base color with two adjacent to its complement",
      colors := some (topHslColors colors) }
  else if analogousCheck colors then
    { type := "Analogous", score := 85, description := "Adjacent colors create smooth harmony",
      colors := some (topHslColors colors) }
  else if tetradicCheck colors then
    { type := "Tetradic", score := 82, description := "Four colors in rectangular arrangement",
      colors := some (topHslColors colors) }
  else
    { type := "Complex", score := 75, description := "Unique color relationship",
      colors := some (topHslColors colors) }

/-- Two equal-coverage fully saturated colors at hues 0 (pure red) and
180 (pure cyan). -/
def c7Colors : List HColor :=
  [{ rgb := (255, 0, 0), percentage := 50 }, { rgb := (0, 255, 255), percentage := 50 }]

/-- An RGBA pixel of decoded image data. -/
structure Pixel4 where
  r : ℕ
  g : ℕ
  b : ℕ
  a : ℕ
deriving Repr, DecidableEq

/-- RGB channels of a pixel as rationals. -/
def pixel4rgbq (p : Pixel4) : ℚ × ℚ × ℚ := ((p.r : ℚ), (p.g : ℚ), (p.b : ℚ))

/-- The source's `getPixelWeight`: 0.7 weight on darkness plus 0.3 on
saturation. -/
def getPixelWeight (rgb : ℚ × ℚ × ℚ) : ℚ :=
  let hsl := rgbToHsl rgb
  let luminanceWeight : ℚ := 1 - (hsl.2.2 : ℚ) / 100
  let saturationWeight : ℚ := (hsl.2.1 : ℚ) / 100
  luminanceWeight * (7/10) + saturationWeight * (3/10)

/-- The opaque pixels of a `width`×`height` image with their coordinates,
in the source's row-major scan order (`y` outer, `x` inner, alpha
threshold 128). -/
def opaquePixels (width height : ℕ) (img : ℕ → ℕ → Pixel4) : List (ℕ × ℕ × Pixel4) :=
  (List.range height).flatMap (fun y =>
    (List.range width).filterMap (fun x =>
      if 128 < (img x y).a then some (x, y, img x y) else none))

/-- Accumulated `totalWeight`. -/
def totalWeightOf (width height : ℕ) (img : ℕ → ℕ → Pixel4) : ℚ :=
  ((opaquePixels width height img).map (fun p => getPixelWeight (pixel4rgbq p.2.2))).sum

/-- Accumulated `weightedX`. -/
def weightedXOf (width height : ℕ) (img : ℕ → ℕ → Pixel4) : ℚ :=
  ((opaquePixels width height img).map
    (fun p => (p.1 : ℚ) * getPixelWeight (pixel4rgbq p.2.2))).sum

/-- Accumulated `weightedY`. -/
def weightedYOf (width height : ℕ) (img : ℕ → ℕ → Pixel4) : ℚ :=
  ((opaquePixels width height img).map
    (fun p => (p.2.1 : ℚ) * getPixelWeight (pixel4rgbq p.2.2))).sum

/-- The source's `centerX` (normalized to 0–100, defaulting to 50 when
the total weight is zero). -/
def centerXOf (width height : ℕ) (img : ℕ → ℕ → Pixel4) : ℚ :=
  if 0 < totalWeightOf width height img then
    weightedXOf width height img / totalWeightOf width height img / (width : ℚ) * 100
  else 50

/-- The source's `centerY`. -/
def centerYOf (width height : ℕ) (img : ℕ → ℕ → Pixel4) : ℚ :=
  if 0 < totalWeightOf width height img then
    weightedYOf width height img / totalWeightOf width height img / (height : ℚ) * 100
  else 50

/-- Quadrant weight sum.  `x < width/2` is written `2*x < width` (same
inequality over the rationals). -/
def quadTopLeftOf (width height : ℕ) (img : ℕ → ℕ → Pixel4) : ℚ :=
  (((opaquePixels width height img).filter
      (fun p => decide (2 * p.1 < width) && decide (2 * p.2.1 < height))).map
    (fun p => getPixelWeight (pixel4rgbq p.2.2))).sum

/-- Top-right quadrant weight sum. -/
def quadTopRightOf (width height : ℕ) (img : ℕ → ℕ → Pixel4) : ℚ :=
  (((opaquePixels width height img).filter
      (fun p => !decide (2 * p.1 < width) && decide (2 * p.2.1 < height))).map
    (fun p => getPixelWeight (pixel4rgbq p.2.2))).sum

/-- Bottom-left quadrant weight sum. -/
def quadBottomLeftOf (width height : ℕ) (img : ℕ → ℕ → Pixel4) : ℚ :=
  (((opaquePixels width height img).filter
      (fun p => decide (2 * p.1 < width) && !decide (2 * p.2.1 < height))).map
    (fun p => getPixelWeight (pixel4rgbq p.2.2))).sum

/-- Bottom-right quadrant weight sum. -/
def quadBottomRightOf (width height : ℕ) (img : ℕ → ℕ → Pixel4) : ℚ :=
  (((opaquePixels width height img).filter
      (fun p => !decide (2 * p.1 < width) && !decide (2 * p.2.1 < height))).map
    (fun p => getPixelWeight (pixel4rgbq p.2.2))).sum

/-- The source's quadrant output `(q / totalWeight) * 100`, which is
unguarded: with zero total weight the JavaScript value is `NaN` (0/0),
modelled as `none`. -/
def quadrantPercent (q totalWeight : ℚ) : Option ℚ :=
  if totalWeight = 0 then none else some (q / totalWeight * 100)

/-- The source's `horizontalBalance` (guarded by the left-half sum). -/
def horizontalBalanceOf (width height : ℕ) (img : ℕ → ℕ → Pixel4) : ℚ :=
  if 0 < quadTopLeftOf width height img + quadBottomLeftOf width height img then
    (quadTopRightOf width height img + quadBottomRightOf width height img) /
      (quadTopLeftOf width height img + quadBottomLeftOf width height img +
        quadTopRightOf width height img + quadBottomRightOf width height img) * 100
  else 50

/-- The source's `verticalBalance` (guarded by the top-half sum). -/
def verticalBalanceOf (width height : ℕ) (img : ℕ → ℕ → Pixel4) : ℚ :=
  if 0 < quadTopLeftOf width height img + quadTopRightOf width height img then
    (quadBottomLeftOf width height img + quadBottomRightOf width height img) /
      (quadTopLeftOf width height img + quadTopRightOf width height img +
        quadBottomLeftOf width height img + quadBottomRightOf width height img) * 100
  else 50

/-- Heatmap grid index: `Math.min(Math.floor((c / size) * 3), 2)`;
for `size > 0` the floor equals natural division `3 * c / size`. -/
def gridIndex (c size : ℕ) : ℕ := min (3 * c / size) 2

/-- Weight sum of one 3×3 heatmap cell. -/
def gridCellWeightOf (width height : ℕ) (img : ℕ → ℕ → Pixel4) (gx gy : ℕ) : ℚ :=
  (((opaquePixels width height img).filter
      (fun p => gridIndex p.1 width == gx && gridIndex p.2.1 height == gy)).map
    (fun p => getPixelWeight (pixel4rgbq p.2.2))).sum

/-- JavaScript `Math.max(...grid.flat())` over the nine cells (grid cells
are weight sums, hence the list is nonempty and the `-Infinity` empty
case cannot occur). -/
def jsMaxQ : List ℚ → ℚ
  | [] => 0
  | h :: t => t.foldl max h

/-- Maximum heatmap cell weight. -/
def maxGridWeightOf (width height : ℕ) (img : ℕ → ℕ → Pixel4) : ℚ :=
  jsMaxQ ((List.range 3).flatMap (fun gy =>
    (List.range 3).map (fun gx => gridCellWeightOf width height img gx gy)))

/-- Normalized 3×3 heatmap (rows indexed by `gy`). -/
def heatmapOf (width height : ℕ) (img : ℕ → ℕ → Pixel4) : List (List ℚ) :=
  (List.range 3).map (fun gy => (List.range 3).map (fun gx =>
    if 0 < maxGridWeightOf width height img then
      gridCellWeightOf width height img gx gy / maxGridWeightOf width height img
    else 0))

/-- Squared distance of the center of mass from (50,50).  The source
compares the square-root distance `centerDev` against 10 and 25; the
embedding compares this square against 100 and 625 (both sides
nonnegative, so the comparisons agree). -/
def centerDevSqOf (width height : ℕ) (img : ℕ → ℕ → Pixel4) : ℚ :=
  (centerXOf width height img - 50) ^ 2 + (centerYOf width height img - 50) ^ 2

/-- The source's balance classification (type, description). -/
def balanceTypeOf (width height : ℕ) (img : ℕ → ℕ → Pixel4) : String × String :=
  let hDev := |horizontalBalanceOf width height img - 50|
  let vDev := |verticalBalanceOf width height img - 50|
  if centerDevSqOf width height img < 100 ∧ hDev < 10 ∧ vDev < 10 then
    ("Centered", "Weight evenly distributed from center")
  else if hDev > 25 ∧ vDev < 15 then
    (if horizontalBalanceOf width height img > 50 then "Right Heavy" else "Left Heavy",
     "Horizontal asymmetry creates dynamic tension")
  else if vDev > 25 ∧ hDev < 15 then
    (if verticalBalanceOf width height img > 50 then "Bottom Heavy" else "Top Heavy",
     "Vertical weight distribution")
  else if centerDevSqOf width height img > 625 then
    ("Off-Center", "Strong focal point away from center")
  else ("Balanced", "Asymmetrical balance with visual equilibrium")

/-- Output of `analyzeVisualWeight`.  The `balanceScore` field
(`round(100 − 2·centerDev)`) depends on the actual square root
`centerDev`, an irrational real; it is not modelled — no claim refers
to it. -/
structure VisualWeight where
  centerOfMass : ℚ × ℚ
  quadrantTopLeft : Option ℚ
  quadrantTopRight : Option ℚ
  quadrantBottomLeft : Option ℚ
  quadrantBottomRight : Option ℚ
  horizontalBalance : ℚ
  verticalBalance : ℚ
  balanceType : String
  balanceDescription : String
  heatmap : List (List ℚ)
deriving Repr, DecidableEq

/-- The source's `analyzeVisualWeight` on a decoded `width`×`height`
pixel grid. -/
def analyzeVisualWeight (width height : ℕ) (img : ℕ → ℕ → Pixel4) : VisualWeight :=
  { centerOfMass := (centerXOf width height img, centerYOf width height img),
    quadrantTopLeft :=
      quadrantPercent (quadTopLeftOf width height img) (totalWeightOf width height img),
    quadrantTopRight :=
      quadrantPercent (quadTopRightOf width height img) (totalWeightOf width height img),
    quadrantBottomLeft :=
      quadrantPercent (quadBottomLeftOf width height img) (totalWeightOf width height img),
    quadrantBottomRight :=
      quadrantPercent (quadBottomRightOf width height img) (totalWeightOf width height img),
    horizontalBalance := horizontalBalanceOf width height img,
    verticalBalance := verticalBalanceOf width height img,
    balanceType := (balanceTypeOf width height img).1,
    balanceDescription := (balanceTypeOf width height img).2,
    heatmap := heatmapOf width height img }

/-- All channels of every pixel of the image are 8-bit (at most 255), as
holds for decoded canvas image data. -/
def ChannelsLE (img : ℕ → ℕ → Pixel4) : Prop :=
  ∀ x y, (img x y).r ≤ 255 ∧ (img x y).g ≤ 255 ∧ (img x y).b ≤ 255

/-- A 1×1 all-black fully-opaque image. -/
def c8Img : ℕ → ℕ → Pixel4 := fun _ _ => { r := 0, g := 0, b := 0, a := 255 }

/-- A fully transparent image (every alpha 0). -/
def transparentImg : ℕ → ℕ → Pixel4 := fun _ _ => { r := 0, g := 0, b := 0, a := 0 }

/-- Keep every 4th pixel of a flat pixel sequence (the `i += 16` byte
stride of the source's sampling loops). -/
def sampleStride : List Pixel4 → List Pixel4
  | [] => []
  | p :: rest => p :: sampleStride (rest.drop 3)
  termination_by l => l.length
  decreasing_by simp [List.length_drop]; omega

/-- Sampled pixels passing the alpha threshold (`a > 128`). -/
def opaqueSampled (data : List Pixel4) : List Pixel4 :=
  (sampleStride data).filter (fun p => decide (128 < p.a))

/-- The source's `getLuminance` (ITU-R BT.709 weights). -/
def getLuminance (rgb : ℚ × ℚ × ℚ) : ℚ :=
  (0.2126 * rgb.1 + 0.7152 * rgb.2.1 + 0.0722 * rgb.2.2) / 255

/-- The source's `luminanceToZone`. -/
def luminanceToZone (luminance : ℚ) : ℤ := jsRound (luminance * 10)

/-- The static `ZONE_INFO` table: (name, description, shadow/midtone/highlight tag). -/
def ZONE_INFO : List (String × String × String) :=
  [("Zone 0", "Pure black, no texture", "shadow"),
   ("Zone I", "Near black, slight tonality", "shadow"),
   ("Zone II", "Deep shadows, first hint of texture", "shadow"),
   ("Zone III", "Dark shadows with texture", "shadow"),
   ("Zone IV", "Open shadow, dark foliage", "midtone"),
   ("Zone V", "Middle gray (18 percent gray card)", "midtone"),
   ("Zone VI", "Light skin, bright foliage", "midtone"),
   ("Zone VII", "Light gray, textured whites", "highlight"),
   ("Zone VIII", "Bright white with texture", "highlight"),
   ("Zone IX", "Near white, slight tonality", "highlight"),
   ("Zone X", "Pure white, no texture", "highlight")]

/-- Number of opaque sampled pixels falling in zone `z` (the
`zoneCounts[zone]++` histogram; for 8-bit channels the zone index is
always within 0–10). -/
def zoneCount (data : List Pixel4) (z : ℕ) : ℕ :=
  ((opaqueSampled data).filter (fun p =>
    luminanceToZone (getLuminance ((p.r : ℚ), (p.g : ℚ), (p.b : ℚ))) == (z : ℤ))).length

/-- One bucket of the zone report. -/
structure ZoneBucket where
  zone : ℕ
  name : String
  description : String
  type : String
  count : ℕ
  percentage : ℚ
deriving Repr, DecidableEq

/-- The source's `zoneData`: the 11 buckets with counts and percentages
(the division is guarded by `totalPixels > 0`). -/
def zoneDataOf (data : List Pixel4) : List ZoneBucket :=
  (List.range 11).map (fun z =>
    let info := ZONE_INFO.getD z ("", "", "")
    { zone := z, name := info.1, description := info.2.1, type := info.2.2,
      count := zoneCount data z,
      percentage :=
        if 0 < (opaqueSampled data).length then
          (zoneCount data z : ℚ) / ((opaqueSampled data).length : ℚ) * 100
        else 0 })

/-- Shadow aggregate (zones 0–3). -/
def shadowPercentageOf (data : List Pixel4) : ℚ :=
  (((zoneDataOf data).take 4).map (fun z => z.percentage)).sum

/-- Midtone aggregate (zones 4–6). -/
def midtonePercentageOf (data : List Pixel4) : ℚ :=
  ((((zoneDataOf data).drop 4).take 3).map (fun z => z.percentage)).sum

/-- Highlight aggregate (zones 7–10). -/
def highlightPercentageOf (data : List Pixel4) : ℚ :=
  (((zoneDataOf data).drop 7).map (fun z => z.percentage)).sum

/-- Zones with percentage at least the 2 percent significance threshold. -/
def significantZonesOf (data : List Pixel4) : List ZoneBucket :=
  (zoneDataOf data).filter (fun z => decide (2 ≤ z.percentage))

/-- The source's `dynamicRange` (lightest minus darkest significant
zone).  With no significant zone the JavaScript value is
`-Infinity - Infinity = -Infinity`; that case is `none` here. -/
def dynamicRangeOf (data : List Pixel4) : Option ℤ :=
  match significantZonesOf data with
  | [] => none
  | zs => some (jsMaxInt (zs.map (fun z => (z.zone : ℤ))) -
      jsMinInt (zs.map (fun z => (z.zone : ℤ))))

/-- The source's tonal character chain.  In the `none` (`-Infinity`)
dynamic-range case, `-Infinity >= 8` is false and `-Infinity <= 4` is
true, so the JavaScript result is "Compressed". -/
def zoneCharacterOf (data : List Pixel4) : String × String :=
  if shadowPercentageOf data > 50 then ("Low Key", "Shadow-dominant, dramatic mood")
  else if highlightPercentageOf data > 50 then ("High Key", "Highlight-dominant, bright and airy")
  else if midtonePercentageOf data > 50 then ("Middle Key", "Balanced midtones, natural feel")
  else
    match dynamicRangeOf data with
    | none => ("Compressed", "Narrow tonal range, flat look")
    | some dr =>
        if dr ≥ 8 then ("Full Range", "Wide tonal range, high contrast")
        else if dr ≤ 4 then ("Compressed", "Narrow tonal range, flat look")
        else ("Balanced", "Even distribution across zones")

/-! ## Color quantizer (`kMeans`, diversity variant) -/

/-- Number of initial clusters. -/
def K_CLUSTERS : ℕ := 8

/-- Iteration cap. -/
def MAX_ITERATIONS : ℕ := 25

/-- Rational RGB triple of a swatch's rounded integer channels. -/
def swatchRgbQ (c : ColorSwatch) : ℚ × ℚ × ℚ :=
  ((c.rgb.1 : ℚ), (c.rgb.2.1 : ℚ), (c.rgb.2.2 : ℚ))

/-- The source's `hasConverged`: every centroid moved less than the
convergence threshold 1 (squared: 1).  The source indexes
`newCentroids[idx]` with equal-length lists, the same traversal as the
zip. -/
def hasConverged (oldCentroids newCentroids : List (ℚ × ℚ × ℚ)) : Bool :=
  (oldCentroids.zip newCentroids).all (fun oc => decide (colorDistanceSq oc.1 oc.2 < 1))

/-- The assign/update/convergence loop of `kMeans`.  `fuel` counts the
remaining iterations after the current one (the source runs at most
`MAX_ITERATIONS` iterations, so the loop starts with
`MAX_ITERATIONS - 1`); on convergence the previous centroids and the
current assignments are kept, exactly as the source's `break` leaves
them. -/
def kmeansLoop (pixels : List (ℕ × ℕ × ℕ)) (fuel : ℕ) (centroids : List (ℚ × ℚ × ℚ)) :
    List (ℚ × ℚ × ℚ) × List ℕ :=
  let assignments := assignClusters pixels centroids
  let newCentroids := updateCentroids pixels assignments K_CLUSTERS
  if hasConverged centroids newCentroids then (centroids, assignments)
  else
    match fuel with
    | 0 => (newCentroids, assignments)
    | f + 1 => kmeansLoop pixels f newCentroids

/-- JavaScript sort comparator `(a, b) => b.percentage - a.percentage`:
`a` stays before `b` exactly when the comparator is nonpositive. -/
def percentageDescending (a b : ColorSwatch) : Bool :=
  decide (b.percentage ≤ a.percentage)

/-- The stable descending sort by coverage (`Array.prototype.sort`). -/
def sortByPercentage (colors : List ColorSwatch) : List ColorSwatch :=
  colors.mergeSort percentageDescending

/-- Cluster swatches of `kMeans` before post-processing: counts per
cluster and percentages over the full sample. -/
def kMeansColors (init : List (ℚ × ℚ × ℚ)) (pixels : List (ℕ × ℕ × ℕ)) : List ColorSwatch :=
  let pair := kmeansLoop pixels (MAX_ITERATIONS - 1) init
  let counts := (List.range K_CLUSTERS).map (fun j => pair.2.count j)
  (pair.1.zip counts).map (fun cn =>
    { rgb := (jsRound cn.1.1, jsRound cn.1.2.1, jsRound cn.1.2.2),
      hex := rgbToHex (jsRound cn.1.1).toNat (jsRound cn.1.2.1).toNat (jsRound cn.1.2.2).toNat,
      percentage := (cn.2 : ℚ) / (pixels.length : ℚ) * 100,
      count := cn.2 })

/-- Merge one pivot with its nearby colors: pixel-count-weighted average
channels, summed count; left unchanged when nothing was merged
(`totalCount > colors[i].count` fails). -/
def mergeOne (c : ColorSwatch) (close : List ColorSwatch) : ColorSwatch :=
  let totalCount := c.count + (close.map (fun d => d.count)).sum
  let weightedR := (c.rgb.1 : ℚ) * c.count + (close.map (fun d => (d.rgb.1 : ℚ) * d.count)).sum
  let weightedG :=
    (c.rgb.2.1 : ℚ) * c.count + (close.map (fun d => (d.rgb.2.1 : ℚ) * d.count)).sum
  let weightedB :=
    (c.rgb.2.2 : ℚ) * c.count + (close.map (fun d => (d.rgb.2.2 : ℚ) * d.count)).sum
  if c.count < totalCount then
    { c with
      rgb := (jsRound (weightedR / totalCount), jsRound (weightedG / totalCount),
        jsRound (weightedB / totalCount)),
      hex := rgbToHex (jsRound (weightedR / totalCount)).toNat
        (jsRound (weightedG / totalCount)).toNat (jsRound (weightedB / totalCount)).toNat,
      count := totalCount }
  else c

/-- The source's `mergeSimilarColors`: each unused pivot absorbs every
later unused color within `minDist` of the pivot's original channels.
The `used`-set loop is the partition recursion below. -/
def mergeSimilarColors (colors : List ColorSwatch) (minDistSq : ℚ) : List ColorSwatch :=
  match colors with
  | [] => []
  | c :: rest =>
    let parts := rest.partition
      (fun d => decide (colorDistanceSq (swatchRgbQ c) (swatchRgbQ d) < minDistSq))
    mergeOne c parts.1 :: mergeSimilarColors parts.2 minDistSq
  termination_by colors.length
  decreasing_by
    simp only [List.partition_eq_filter_filter]
    have hlf := List.length_filter_le
      (not ∘ fun d => decide (colorDistanceSq (swatchRgbQ c) (swatchRgbQ d) < minDistSq)) rest
    simp only [List.length_cons]
    omega

/-- Accumulator recursion of the source's `filterDistinctColors` loop
(push unless too similar to a kept color, break once `targetCount` kept). -/
def filterDistinctGo (minDistSq : ℚ) (targetCount : ℕ) :
    List ColorSwatch → List ColorSwatch → List ColorSwatch
  | [], distinct => distinct
  | c :: rest, distinct =>
    let isTooSimilar := distinct.any
      (fun s => decide (colorDistanceSq (swatchRgbQ c) (swatchRgbQ s) < minDistSq))
    let distinct2 := if isTooSimilar then distinct else distinct ++ [c]
    if targetCount ≤ distinct2.length then distinct2
    else filterDistinctGo minDistSq targetCount rest distinct2

/-- The source's `filterDistinctColors`. -/
def filterDistinctColors (colors : List ColorSwatch) (minDistSq : ℚ) (targetCount : ℕ) :
    List ColorSwatch :=
  filterDistinctGo minDistSq targetCount colors []

/-- Recompute every percentage from the retained counts over the retained
subset's total (the `reduce`/`forEach` renormalization, applied after the
merge and again after the distinctness filter). -/
def renormalizePercentages (colors : List ColorSwatch) : List ColorSwatch :=
  let total := (colors.map (fun c => c.count)).sum
  colors.map (fun c => { c with percentage := (c.count : ℚ) / (total : ℚ) * 100 })

/-- The source's `kMeans` (diversity variant), parameterized by the
randomly seeded initial centroids.  The merge threshold
`MIN_COLOR_DISTANCE * 0.6 = 36` and the distinctness threshold
`MIN_COLOR_DISTANCE = 60` appear squared (1296 and 3600). -/
def kMeansWithInit (init : List (ℚ × ℚ × ℚ)) (pixels : List (ℕ × ℕ × ℕ)) :
    List ColorSwatch :=
  if pixels = [] then []
  else
    renormalizePercentages
      (filterDistinctColors
        (sortByPercentage
          (renormalizePercentages
            (mergeSimilarColors (sortByPercentage (kMeansColors init pixels)) 1296)))
        3600 5)

/-- Concrete witness inputs for C1: a single black pixel, eight identical
seed centroids. -/
def c1Init : List (ℚ × ℚ × ℚ) := List.replicate 8 (0, 0, 0)

/-- The single-pixel sample for the C1 witness. -/
def c1Pixels : List (ℕ × ℕ × ℕ) := [(0, 0, 0)]

/-- Sampled pixels as RGB triples, as fed by `getPixelData` into `kMeans`
(stride sampling then the alpha threshold). -/
def getPixelDataSampled (data : List Pixel4) : List (ℕ × ℕ × ℕ) :=
  (opaqueSampled data).map (fun p => (p.r, p.g, p.b))

/-- A one-pixel fully transparent flat data list. -/
def c6Data : List Pixel4 := [{ r := 5, g := 5, b := 5, a := 0 }]

/-- One cinematographer reference profile (the nested `style` object is
flattened into the record). -/
structure StyleProfile where
  id : String
  name : String
  notable : String
  saturationRange : ℚ × ℚ
  luminanceBalance : String
  harmonyTypes : List String
  zoneCharacters : List String
  dominantHueRanges : List (ℚ × ℚ)
  contrastPreference : String
deriving Repr, DecidableEq

/-- The static `CINEMATOGRAPHER_PROFILES` table. -/
def CINEMATOGRAPHER_PROFILES : List StyleProfile :=
  [{ id := "deakins", name := "Roger Deakins",
     notable := "Blade Runner 2049, 1917, No Country for Old Men",
     saturationRange := (15, 45), luminanceBalance := "balanced",
     harmonyTypes := ["Analogous", "Monochromatic", "Complementary"],
     zoneCharacters := ["Balanced", "Low Key", "Full Range"],
     dominantHueRanges := [(30, 60), (180, 240)], contrastPreference := "high" },
   { id := "lubezki", name := "Emmanuel Lubezki",
     notable := "The Revenant, Gravity, Birdman",
     saturationRange := (10, 35), luminanceBalance := "highlight-heavy",
     harmonyTypes := ["Monochromatic", "Analogous", "Achromatic"],
     zoneCharacters := ["High Key", "Full Range", "Balanced"],
     dominantHueRanges := [(180, 240), (30, 90)], contrastPreference := "natural" },
   { id := "richardson", name := "Robert Richardson",
     notable := "Kill Bill, Django Unchained, The Aviator",
     saturationRange := (40, 80), luminanceBalance := "shadow-heavy",
     harmonyTypes := ["Complementary", "Split-Complementary", "Triadic"],
     zoneCharacters := ["Low Key", "Full Range"],
     dominantHueRanges := [(0, 30), (330, 360), (45, 75)],
     contrastPreference := "dramatic" },
   { id := "kaminski", name := "Janusz Kaminski",
     notable := "Schindler's List, Saving Private Ryan, Lincoln",
     saturationRange := (5, 30), luminanceBalance := "balanced",
     harmonyTypes := ["Achromatic", "Monochromatic", "Analogous"],
     zoneCharacters := ["Full Range", "Low Key", "Compressed"],
     dominantHueRanges := [(30, 60), (0, 30)], contrastPreference := "high" },
   { id := "khondji", name := "Darius Khondji",
     notable := "Se7en, Midnight in Paris, Uncut Gems",
     saturationRange := (20, 50), luminanceBalance := "shadow-heavy",
     harmonyTypes := ["Monochromatic", "Analogous", "Complementary"],
     zoneCharacters := ["Low Key", "Compressed"],
     dominantHueRanges := [(30, 90), (150, 210)], contrastPreference := "low" },
   { id := "storaro", name := "Vittorio Storaro",
     notable := "Apocalypse Now, The Last Emperor, Dick Tracy",
     saturationRange := (50, 90), luminanceBalance := "balanced",
     harmonyTypes := ["Complementary", "Triadic", "Split-Complementary"],
     zoneCharacters := ["Full Range", "Balanced"],
     dominantHueRanges := [(0, 360)], contrastPreference := "theatrical" },
   { id := "sandgren", name := "Linus Sandgren",
     notable := "La La Land, First Man, Babylon",
     saturationRange := (45, 75), luminanceBalance := "highlight-heavy",
     harmonyTypes := ["Analogous", "Complementary", "Triadic"],
     zoneCharacters := ["High Key", "Balanced"],
     dominantHueRanges := [(30, 60), (270, 300), (180, 210)],
     contrastPreference := "medium" },
   { id := "fraser", name := "Greig Fraser",
     notable := "Dune, The Batman, Rogue One",
     saturationRange := (15, 40), luminanceBalance := "shadow-heavy",
     harmonyTypes := ["Monochromatic", "Analogous", "Achromatic"],
     zoneCharacters := ["Low Key", "Compressed", "Full Range"],
     dominantHueRanges := [(30, 60), (0, 30)], contrastPreference := "atmospheric" }]

/-- A color record of the combined analysis; `hsl` may be absent
(`c.hsl || [0, 0, 0]` in the source). -/
structure AnalysisColor where
  hsl : Option (ℚ × ℚ × ℚ)
deriving Repr, DecidableEq

/-- The detected harmony as consumed by the matcher (only `.type` is
read). -/
structure HarmonyRef where
  type : String
deriving Repr, DecidableEq

/-- The zone report as consumed by the matcher (only `.character` is
read). -/
structure ZoneRef where
  character : String
deriving Repr, DecidableEq

/-- The combined analysis input of `calculateMatchScore`.  `weightData`
is never read by the matcher. -/
structure AnalysisInput where
  colors : List AnalysisColor
  harmony : Option HarmonyRef
  zoneData : Option ZoneRef
deriving Repr, DecidableEq

/-- Factor 1 of `calculateMatchScore`: saturation fit (score,
factor-increment). -/
def satPartOf (analysis : AnalysisInput) (profile : StyleProfile) : ℚ × ℕ :=
  if analysis.colors.length ≠ 0 then
    let avgSaturation := ((analysis.colors.take 3).map
      (fun c => (c.hsl.getD (0, 0, 0)).2.1)).sum / ((min analysis.colors.length 3 : ℕ) : ℚ)
    let minSat := profile.saturationRange.1
    let maxSat := profile.saturationRange.2
    (if minSat ≤ avgSaturation ∧ avgSaturation ≤ maxSat then 25
     else max 0 (25 - (if avgSaturation < minSat then minSat - avgSaturation
       else avgSaturation - maxSat)), 1)
  else (0, 0)

/-- Factor 2: harmony-type fit. -/
def harmonyPartOf (analysis : AnalysisInput) (profile : StyleProfile) : ℚ × ℕ :=
  match analysis.harmony with
  | some hr => (if profile.harmonyTypes.contains hr.type then 25 else 10, 1)
  | none => (0, 0)

/-- Factor 3: zone-character fit. -/
def zonePartOf (analysis : AnalysisInput) (profile : StyleProfile) : ℚ × ℕ :=
  match analysis.zoneData with
  | some zr => (if profile.zoneCharacters.contains zr.character then 25 else 10, 1)
  | none => (0, 0)

/-- Factor 4: dominant-hue fit (requires a first color with an `hsl`
field; ranges may wrap around 0/360). -/
def huePartOf (analysis : AnalysisInput) (profile : StyleProfile) : ℚ × ℕ :=
  match analysis.colors with
  | [] => (0, 0)
  | c0 :: _ =>
    match c0.hsl with
    | some hsl =>
      (if profile.dominantHueRanges.any (fun r =>
          if r.1 ≤ r.2 then decide (r.1 ≤ hsl.1 ∧ hsl.1 ≤ r.2)
          else decide (hsl.1 ≥ r.1 ∨ hsl.1 ≤ r.2)) then 25 else 8, 1)
    | none => (0, 0)

/-- The source's `calculateMatchScore`: the available factors' scores
averaged and scaled by 4 (rounded), 0 with no factors. -/
def calculateMatchScore (analysis : AnalysisInput) (profile : StyleProfile) : ℤ :=
  let score := (satPartOf analysis profile).1 + (harmonyPartOf analysis profile).1 +
    (zonePartOf analysis profile).1 + (huePartOf analysis profile).1
  let factors := (satPartOf analysis profile).2 + (harmonyPartOf analysis profile).2 +
    (zonePartOf analysis profile).2 + (huePartOf analysis profile).2
  if 0 < factors then jsRound (score / (factors : ℚ) * 4) else 0

/-- One ranked match: the spread profile plus its score. -/
structure MatchResult where
  profile : StyleProfile
  matchScore : ℤ
deriving Repr, DecidableEq

/-- JavaScript comparator `(a, b) => b.matchScore - a.matchScore`. -/
def scoreDescending (a b : MatchResult) : Bool :=
  decide (b.matchScore ≤ a.matchScore)

/-- The per-profile scored matches (the `matches` array before sorting). -/
def scoredProfiles (analysis : AnalysisInput) : List MatchResult :=
  CINEMATOGRAPHER_PROFILES.map (fun p =>
    { profile := p, matchScore := calculateMatchScore analysis p })

/-- The source's `matchCinematographerStyle`: score every profile, then
stable-sort descending by score. -/
def matchCinematographerStyle (analysis : AnalysisInput) : List MatchResult :=
  (scoredProfiles analysis).mergeSort scoreDescending

theorem jsRound_mono {a b : ℚ} (h : a ≤ b) : jsRound a ≤ jsRound b :=
  Int.floor_le_floor (by linarith)

theorem jsRound_nonneg {a : ℚ} (h : 0 ≤ a) : 0 ≤ jsRound a :=
  Int.le_floor.mpr (by push_cast; linarith)

theorem jsRound_le_of_le {a : ℚ} {n : ℤ} (h : a ≤ n) : jsRound a ≤ n := by
  have : jsRound a ≤ jsRound (n : ℚ) := jsRound_mono h
  calc jsRound a ≤ jsRound (n : ℚ) := this
    _ = n := by
        unfold jsRound
        rw [show ((n : ℚ) + 1/2) = n + 1/2 by ring]
        rw [Int.floor_int_add]
        norm_num

theorem compositionScore_eq (colors : List ColorSwatch) (h : ¬ colors.length < 3) :
    (calculateCompositionScore colors).score =
      max 0 (min 100 (jsRound (100 - totalDeviationOf colors * (77/100)))) := by
  simp only [calculateCompositionScore, if_neg h]

/-- Claim C3, counterexample: a swatch list whose percentages differ from
the 60/30/10 targets (top percentage 60.1) still scores exactly 100, so
the score is not 100 *only* at an exact match. -/
theorem c3_counterexample :
    (calculateCompositionScore c3CounterSwatches).score = 100 ∧
    ¬ (c3CounterSwatches.map (fun c => c.percentage) = compositionTargets) := by
  norm_num [calculateCompositionScore, totalDeviationOf, compositionTargets,
    c3CounterSwatches, jsRound, abs_of_nonneg]

/-- Claim C3 (amended): for at least three swatches the score is in
[0, 100] and non-increasing in the total absolute deviation, and it
equals 100 exactly when the total absolute deviation is at most 50/77
(≈ 0.649) — which includes, but is not limited to, an exact match of all
three percentages with their targets. -/
theorem c3_amended_score_properties (colors : List ColorSwatch) (h3 : 3 ≤ colors.length) :
    (0 ≤ (calculateCompositionScore colors).score ∧
      (calculateCompositionScore colors).score ≤ 100) ∧
    (∀ colors2 : List ColorSwatch, 3 ≤ colors2.length →
      totalDeviationOf colors ≤ totalDeviationOf colors2 →
      (calculateCompositionScore colors2).score ≤ (calculateCompositionScore colors).score) ∧
    ((calculateCompositionScore colors).score = 100 ↔ totalDeviationOf colors ≤ 50/77) := by
  have hni : ¬ colors.length < 3 := by omega
  rw [compositionScore_eq colors hni]
  refine ⟨⟨?_, ?_⟩, ?_, ?_⟩
  · exact le_max_left 0 _
  · exact max_le (by norm_num) (min_le_left _ _)
  · intro colors2 h32 hle
    have hni2 : ¬ colors2.length < 3 := by omega
    rw [compositionScore_eq colors2 hni2]
    have hj : jsRound (100 - totalDeviationOf colors2 * (77/100)) ≤
        jsRound (100 - totalDeviationOf colors * (77/100)) :=
      jsRound_mono (by linarith)
    exact max_le_max (le_refl 0) (min_le_min (le_refl 100) hj)
  · have hiff : max 0 (min 100 (jsRound (100 - totalDeviationOf colors * (77/100)))) = 100 ↔
        100 ≤ jsRound (100 - totalDeviationOf colors * (77/100)) := by omega
    rw [hiff]
    unfold jsRound
    rw [Int.le_floor]
    constructor
    · intro h
      push_cast at h
      linarith
    · intro h
      push_cast
      linarith

/-- Witness for C3 (amended) at the exact-match list 60/30/10. -/
theorem c3_amended_witness :
    3 ≤ c3Swatches.length ∧
    ((0 ≤ (calculateCompositionScore c3Swatches).score ∧
      (calculateCompositionScore c3Swatches).score ≤ 100) ∧
    (∀ colors2 : List ColorSwatch, 3 ≤ colors2.length →
      totalDeviationOf c3Swatches ≤ totalDeviationOf colors2 →
      (calculateCompositionScore colors2).score ≤ (calculateCompositionScore c3Swatches).score) ∧
    ((calculateCompositionScore c3Swatches).score = 100 ↔
      totalDeviationOf c3Swatches ≤ 50/77)) :=
  ⟨by decide, c3_amended_score_properties c3Swatches (by decide)⟩

/-- Claim C4, counterexample: at percentages [33, 33, 34] against targets
[60, 30, 10] the code computes total deviation 54 (= 27 + 3 + 24) and
score 58, not the 56 and 57 stated by the claim. -/
theorem c4_counterexample :
    (calculateCompositionScore c4Swatches).totalDeviation = some 54 ∧
    (calculateCompositionScore c4Swatches).score = 58 ∧
    ¬ ((calculateCompositionScore c4Swatches).totalDeviation = some 56 ∧
       (calculateCompositionScore c4Swatches).score = 57) := by
  norm_num [calculateCompositionScore, totalDeviationOf, compositionTargets,
    c4Swatches, jsRound]

/-- Claim C4 (amended): swatches at [33, 33, 34] against target [60, 30, 10]
give total deviation 54, score round(100 − 54·0.77) = 58, and verdict
"Expressive". -/
theorem c4_amended_scenario :
    (calculateCompositionScore c4Swatches).totalDeviation = some 54 ∧
    (calculateCompositionScore c4Swatches).score = 58 ∧
    (calculateCompositionScore c4Swatches).verdict = "Expressive" := by
  norm_num [calculateCompositionScore, totalDeviationOf, compositionTargets,
    c4Swatches, jsRound]

/-- Claim C5: with fewer than three swatches the composition scorer
returns the sentinel result — score 0, verdict "Insufficient colors",
empty deviations — and (being a total function) raises no error. -/
theorem c5_insufficient_colors (colors : List ColorSwatch) (h : colors.length < 3) :
    calculateCompositionScore colors =
      { score := 0, verdict := "Insufficient colors", verdictDescription := none,
        deviations := [], totalDeviation := none } := by
  simp [calculateCompositionScore, if_pos h]

/-- Witness for C5 at the empty swatch list. -/
theorem c5_insufficient_colors_witness :
    ([] : List ColorSwatch).length < 3 ∧
    calculateCompositionScore [] =
      { score := 0, verdict := "Insufficient colors", verdictDescription := none,
        deviations := [], totalDeviation := none } :=
  ⟨by decide, c5_insufficient_colors [] (by decide)⟩

/-! ## Hex round trip (`rgbToHex` / `hexToRgb`) -/

theorem natToHexDigits_of_lt {n : ℕ} (h : n < 16) :
    natToHexDigits n = [hexDigitChar n] := by
  rw [natToHexDigits]
  simp [h]

theorem natToHexDigits_of_ge {n : ℕ} (h16 : 16 ≤ n) (h : n < 256) :
    natToHexDigits n = [hexDigitChar (n / 16), hexDigitChar (n % 16)] := by
  rw [natToHexDigits]
  rw [dif_neg (by omega)]
  rw [natToHexDigits_of_lt (by omega : n / 16 < 16)]
  simp

theorem toHexPadded_eq {n : ℕ} (h : n < 256) :
    toHexPadded n = [hexDigitChar (n / 16), hexDigitChar (n % 16)] := by
  rcases Nat.lt_or_ge n 16 with h16 | h16
  · have hd : n / 16 = 0 := Nat.div_eq_of_lt h16
    have hm : n % 16 = n := Nat.mod_eq_of_lt h16
    rw [toHexPadded, natToHexDigits_of_lt h16]
    simp [hd, hm]
    decide
  · rw [toHexPadded, natToHexDigits_of_ge h16 h]
    simp

theorem hexDigit_upper_spec : ∀ d, d < 16 →
    isHexDigitChar ((hexDigitChar d).toUpper) = true ∧
    hexCharVal ((hexDigitChar d).toUpper) = d ∧
    ((hexDigitChar d).toUpper).toUpper = (hexDigitChar d).toUpper := by
  decide

theorem rgbToHex_data (r g b : ℕ) (hr : r ≤ 255) (hg : g ≤ 255) (hb : b ≤ 255) :
    (rgbToHex r g b).data =
      '#' :: [(hexDigitChar (r / 16)).toUpper, (hexDigitChar (r % 16)).toUpper,
              (hexDigitChar (g / 16)).toUpper, (hexDigitChar (g % 16)).toUpper,
              (hexDigitChar (b / 16)).toUpper, (hexDigitChar (b % 16)).toUpper] := by
  have huphash : Char.toUpper '#' = '#' := by decide
  rw [rgbToHex, toHexPadded_eq (by omega : r < 256), toHexPadded_eq (by omega : g < 256),
    toHexPadded_eq (by omega : b < 256)]
  simp [huphash]

/-- Claim C10: for integer channels in [0,255], `hexToRgb` inverts
`rgbToHex`; the produced string is a 7-character string starting with
`#` whose characters are all uppercase (fixed by `toUpper`), and
`hexToRgb` maps it to `some`, never to `null`. -/
theorem c10_hex_roundtrip (r g b : ℕ) (hr : r ≤ 255) (hg : g ≤ 255) (hb : b ≤ 255) :
    hexToRgb (rgbToHex r g b) = some (r, g, b) ∧
    (rgbToHex r g b).length = 7 ∧
    (rgbToHex r g b).data.head? = some '#' ∧
    ∀ c ∈ (rgbToHex r g b).data, c.toUpper = c := by
  have hdata := rgbToHex_data r g b hr hg hb
  obtain ⟨ir1, vr1, ur1⟩ := hexDigit_upper_spec (r / 16) (by omega)
  obtain ⟨ir2, vr2, ur2⟩ := hexDigit_upper_spec (r % 16) (by omega)
  obtain ⟨ig1, vg1, ug1⟩ := hexDigit_upper_spec (g / 16) (by omega)
  obtain ⟨ig2, vg2, ug2⟩ := hexDigit_upper_spec (g % 16) (by omega)
  obtain ⟨ib1, vb1, ub1⟩ := hexDigit_upper_spec (b / 16) (by omega)
  obtain ⟨ib2, vb2, ub2⟩ := hexDigit_upper_spec (b % 16) (by omega)
  refine ⟨?_, ?_, ?_, ?_⟩
  · rw [hexToRgb, hdata]
    simp only [ir1, ir2, ig1, ig2, ib1, ib2, Bool.and_self, if_true,
      vr1, vr2, vg1, vg2, vb1, vb2]
    have hr' : 16 * (r / 16) + r % 16 = r := by omega
    have hg' : 16 * (g / 16) + g % 16 = g := by omega
    have hb' : 16 * (b / 16) + b % 16 = b := by omega
    rw [hr', hg', hb']
  · have : (rgbToHex r g b).length = (rgbToHex r g b).data.length := rfl
    rw [this, hdata]
    rfl
  · rw [hdata]
    rfl
  · intro c hc
    rw [hdata] at hc
    simp only [List.mem_cons, List.not_mem_nil, or_false] at hc
    rcases hc with h | h | h | h | h | h | h
    · rw [h]
      decide
    all_goals rw [h]
    · exact ur1
    · exact ur2
    · exact ug1
    · exact ug2
    · exact ub1
    · exact ub2

/-! ## K-means clustering (`assignClusters` / `updateCentroids`) -/

/-- Claim C2, counterexample: with centroids [(10,10,10), (200,200,200)]
and the single pixel (10,10,10), cluster 1 gets zero assigned pixels, and
the update step moves its centroid to (0,0,0) instead of keeping the
previous position (200,200,200). -/
theorem c2_counterexample :
    (assignClusters c2Pixels c2Centroids).count 1 = 0 ∧
    (updateCentroids c2Pixels (assignClusters c2Pixels c2Centroids) 2)[1]? =
      some (0, 0, 0) ∧
    (updateCentroids c2Pixels (assignClusters c2Pixels c2Centroids) 2)[1]? ≠
      c2Centroids[1]? := by
  have hasg : assignClusters c2Pixels c2Centroids = [0] := by
    norm_num [assignClusters, assignCluster, assignClusterAux, colorDistanceSq,
      pixq, c2Pixels, c2Centroids]
  rw [hasg]
  refine ⟨by decide, ?_, ?_⟩
  · norm_num [updateCentroids, clusterMembers, c2Pixels, List.range_succ]
  · norm_num [updateCentroids, clusterMembers, c2Pixels, c2Centroids, List.range_succ]
    intro hcontra
    have hfst := congrArg Prod.fst hcontra
    norm_num at hfst

/-- Claim C2 (amended): in the centroid-update step no division by zero
occurs, but a cluster with zero assigned pixels gets centroid (0,0,0)
(its zero channel sums divided by the substituted count 1), not its
previous position; a cluster with at least one assigned pixel becomes the
mean RGB of its assigned pixels. -/
theorem c2_amended_updateCentroids (pixels : List (ℕ × ℕ × ℕ)) (assignments : List ℕ)
    (k j : ℕ) (hj : j < k) :
    (clusterMembers pixels assignments j = [] →
      (updateCentroids pixels assignments k)[j]? = some (0, 0, 0)) ∧
    (clusterMembers pixels assignments j ≠ [] →
      (updateCentroids pixels assignments k)[j]? = some
        (((clusterMembers pixels assignments j).map (fun p => (p.1 : ℚ))).sum /
            ((clusterMembers pixels assignments j).length : ℚ),
         ((clusterMembers pixels assignments j).map (fun p => (p.2.1 : ℚ))).sum /
            ((clusterMembers pixels assignments j).length : ℚ),
         ((clusterMembers pixels assignments j).map (fun p => (p.2.2 : ℚ))).sum /
            ((clusterMembers pixels assignments j).length : ℚ))) := by
  have hget : (updateCentroids pixels assignments k)[j]? =
      some (let assigned := clusterMembers pixels assignments j
            let count : ℚ := if assigned.length = 0 then 1 else (assigned.length : ℚ)
            ((assigned.map (fun p => (p.1 : ℚ))).sum / count,
             (assigned.map (fun p => (p.2.1 : ℚ))).sum / count,
             (assigned.map (fun p => (p.2.2 : ℚ))).sum / count)) := by
    simp [updateCentroids, List.getElem?_range, hj]
  constructor
  · intro hempty
    rw [hget]
    simp [hempty]
  · intro hne
    rw [hget]
    have hlen : (clusterMembers pixels assignments j).length ≠ 0 := by
      simpa [List.length_eq_zero] using hne
    simp [hlen]

/-- Witness for C2 (amended): the empty cluster 1 of the counterexample
state gets centroid (0,0,0). -/
theorem c2_amended_witness :
    1 < 2 ∧ (updateCentroids c2Pixels [0] 2)[1]? = some ((0 : ℚ), (0 : ℚ), (0 : ℚ)) :=
  ⟨by decide,
   (c2_amended_updateCentroids c2Pixels [0] 2 1 (by decide)).1 (by decide)⟩

/-- Witness for C10 at the README's example color (255, 87, 51). -/
theorem c10_hex_roundtrip_witness :
    hexToRgb (rgbToHex 255 87 51) = some (255, 87, 51) ∧
    (rgbToHex 255 87 51).length = 7 ∧
    (rgbToHex 255 87 51).data.head? = some '#' ∧
    ∀ c ∈ (rgbToHex 255 87 51).data, c.toUpper = c :=
  c10_hex_roundtrip 255 87 51 (by decide) (by decide) (by decide)

/-! ## Harmony classifier (`analyzeColorHarmony`) -/

theorem hueDifference_near_180 {d : ℤ} (h : |d - 180| ≤ 30) : hueDifference d 180 ≤ 30 := by
  unfold hueDifference
  rw [if_neg (not_lt.mpr (le_trans h (by norm_num)))]
  exact h

/-- Claim C7: whenever the classifier reaches the complementary test
(at least two colors, average saturation at least 15, hue spread neither
below 20 nor above 340) and some secondary hue's circular distance from
the primary hue is within 30 degrees of 180, the result type is
"Complementary". -/
theorem c7_complementary (colors : List HColor)
    (h2 : 2 ≤ colors.length)
    (hsat : 15 ≤ avgSaturationOf colors)
    (hlo : ¬ hueSpreadOf colors < 20)
    (hhi : ¬ hueSpreadOf colors > 340)
    (hcomp : ∃ h ∈ secondaryHues colors,
      |hueDifference (primaryHueOf colors) h - 180| ≤ 30) :
    (analyzeColorHarmony colors).type = "Complementary" := by
  have hn2 : ¬ colors.length < 2 := by omega
  have hnsat : ¬ avgSaturationOf colors < 15 := not_lt.mpr hsat
  have hck : complementaryCheck colors = true := by
    obtain ⟨h, hmem, hband⟩ := hcomp
    unfold complementaryCheck
    rw [List.any_eq_true]
    refine ⟨h, hmem, ?_⟩
    unfold huesMatch
    rw [decide_eq_true_eq]
    exact hueDifference_near_180 hband
  simp [analyzeColorHarmony, hn2, hnsat, hlo, hhi, hck]

theorem rgbToHsl_red : rgbToHsl (255, 0, 0) = (0, 100, 50) := by
  simp only [rgbToHsl]
  norm_num [max_def, min_def, jsRound]

theorem rgbToHsl_cyan : rgbToHsl (0, 255, 255) = (180, 100, 50) := by
  simp only [rgbToHsl]
  norm_num [max_def, min_def, jsRound]

/-- Witness for C7: the two-color red/cyan palette satisfies every guard
and classifies as "Complementary". -/
theorem c7_complementary_witness :
    2 ≤ c7Colors.length ∧
    15 ≤ avgSaturationOf c7Colors ∧
    ¬ hueSpreadOf c7Colors < 20 ∧
    ¬ hueSpreadOf c7Colors > 340 ∧
    (∃ h ∈ secondaryHues c7Colors,
      |hueDifference (primaryHueOf c7Colors) h - 180| ≤ 30) ∧
    (analyzeColorHarmony c7Colors).type = "Complementary" := by
  have htake : c7Colors.take 3 = c7Colors := List.take_of_length_le (by decide)
  have htop : topHslColors c7Colors =
      [({ rgb := (255, 0, 0), percentage := 50 }, (0, 100, 50)),
       ({ rgb := (0, 255, 255), percentage := 50 }, (180, 100, 50))] := by
    rw [topHslColors, htake]
    show [(({ rgb := (255, 0, 0), percentage := 50 } : HColor), rgbToHsl (255, 0, 0)),
          (({ rgb := (0, 255, 255), percentage := 50 } : HColor), rgbToHsl (0, 255, 255))] = _
    rw [rgbToHsl_red, rgbToHsl_cyan]
  have hhues : topHues c7Colors = [0, 180] := by
    rw [topHues, htop]
    rfl
  have hsat : 15 ≤ avgSaturationOf c7Colors := by
    rw [avgSaturationOf, topSaturations, htop]
    norm_num
  have hlo : ¬ hueSpreadOf c7Colors < 20 := by
    rw [hueSpreadOf, hhues]
    decide
  have hhi : ¬ hueSpreadOf c7Colors > 340 := by
    rw [hueSpreadOf, hhues]
    decide
  have hcomp : ∃ h ∈ secondaryHues c7Colors,
      |hueDifference (primaryHueOf c7Colors) h - 180| ≤ 30 := by
    refine ⟨180, ?_, ?_⟩
    · rw [secondaryHues, hhues]
      decide
    · rw [primaryHueOf, hhues]
      decide
  exact ⟨by decide, hsat, hlo, hhi, hcomp,
    c7_complementary c7Colors (by decide) hsat hlo hhi hcomp⟩

/-! ## Visual weight analyzer (`analyzeVisualWeight`) -/

set_option maxHeartbeats 1000000 in
theorem rgbToHsl_bounds (r0 g0 b0 : ℚ) (hr0 : 0 ≤ r0) (hr1 : r0 ≤ 255)
    (hg0 : 0 ≤ g0) (hg1 : g0 ≤ 255) (hb0 : 0 ≤ b0) (hb1 : b0 ≤ 255) :
    0 ≤ (rgbToHsl (r0, g0, b0)).2.1 ∧
    0 ≤ (rgbToHsl (r0, g0, b0)).2.2 ∧ (rgbToHsl (r0, g0, b0)).2.2 ≤ 100 := by
  simp only [rgbToHsl]
  set mx := max (r0 / 255) (max (g0 / 255) (b0 / 255)) with hmxdef
  set mn := min (r0 / 255) (min (g0 / 255) (b0 / 255)) with hmndef
  have hmx1 : mx ≤ 1 := by
    apply max_le (by linarith) (max_le (by linarith) (by linarith))
  have hmn0 : 0 ≤ mn := by
    apply le_min (by linarith) (le_min (by linarith) (by linarith))
  have hmnmx : mn ≤ mx := le_trans (min_le_left _ _) (le_max_left _ _)
  split_ifs
  all_goals refine ⟨jsRound_nonneg ?_, jsRound_nonneg (by nlinarith),
    jsRound_le_of_le (by nlinarith)⟩
  all_goals first
    | exact mul_nonneg (div_nonneg (by nlinarith) (by nlinarith)) (by norm_num)
    | norm_num

theorem getPixelWeight_nonneg {p : Pixel4} (hr : p.r ≤ 255) (hg : p.g ≤ 255)
    (hb : p.b ≤ 255) : 0 ≤ getPixelWeight (pixel4rgbq p) := by
  obtain ⟨hs, hl0, hl100⟩ := rgbToHsl_bounds (p.r : ℚ) (p.g : ℚ) (p.b : ℚ)
    (by positivity) (by exact_mod_cast hr) (by positivity) (by exact_mod_cast hg)
    (by positivity) (by exact_mod_cast hb)
  unfold getPixelWeight pixel4rgbq
  have hsq : (0 : ℚ) ≤ ((rgbToHsl ((p.r : ℚ), (p.g : ℚ), (p.b : ℚ))).2.1 : ℚ) := by
    exact_mod_cast hs
  have hlq : ((rgbToHsl ((p.r : ℚ), (p.g : ℚ), (p.b : ℚ))).2.2 : ℚ) ≤ 100 := by
    exact_mod_cast hl100
  nlinarith

theorem mem_opaquePixels {width height : ℕ} {img : ℕ → ℕ → Pixel4} {p : ℕ × ℕ × Pixel4}
    (hp : p ∈ opaquePixels width height img) :
    p.1 < width ∧ p.2.1 < height ∧ p.2.2 = img p.1 p.2.1 := by
  simp only [opaquePixels, List.mem_flatMap, List.mem_filterMap, List.mem_range] at hp
  obtain ⟨y, hy, x, hx, hif⟩ := hp
  by_cases ha : 128 < (img x y).a
  · rw [if_pos ha] at hif
    injection hif with hpe
    subst hpe
    exact ⟨hx, hy, rfl⟩
  · rw [if_neg ha] at hif
    cases hif

theorem opaqueWeight_nonneg {width height : ℕ} {img : ℕ → ℕ → Pixel4}
    (himg : ChannelsLE img) {p : ℕ × ℕ × Pixel4} (hp : p ∈ opaquePixels width height img) :
    0 ≤ getPixelWeight (pixel4rgbq p.2.2) := by
  obtain ⟨-, -, heq⟩ := mem_opaquePixels hp
  obtain ⟨h1, h2, h3⟩ := himg p.1 p.2.1
  rw [heq]
  exact getPixelWeight_nonneg h1 h2 h3

theorem totalWeightOf_nonneg (width height : ℕ) (img : ℕ → ℕ → Pixel4)
    (himg : ChannelsLE img) : 0 ≤ totalWeightOf width height img := by
  apply List.sum_nonneg
  intro x hx
  simp only [List.mem_map] at hx
  obtain ⟨p, hp, rfl⟩ := hx
  exact opaqueWeight_nonneg himg hp

theorem weightedXOf_nonneg (width height : ℕ) (img : ℕ → ℕ → Pixel4)
    (himg : ChannelsLE img) : 0 ≤ weightedXOf width height img := by
  apply List.sum_nonneg
  intro x hx
  simp only [List.mem_map] at hx
  obtain ⟨p, hp, rfl⟩ := hx
  exact mul_nonneg (by positivity) (opaqueWeight_nonneg himg hp)

theorem weightedYOf_nonneg (width height : ℕ) (img : ℕ → ℕ → Pixel4)
    (himg : ChannelsLE img) : 0 ≤ weightedYOf width height img := by
  apply List.sum_nonneg
  intro x hx
  simp only [List.mem_map] at hx
  obtain ⟨p, hp, rfl⟩ := hx
  exact mul_nonneg (by positivity) (opaqueWeight_nonneg himg hp)

theorem weightedXOf_le (width height : ℕ) (img : ℕ → ℕ → Pixel4)
    (himg : ChannelsLE img) :
    weightedXOf width height img ≤ (width : ℚ) * totalWeightOf width height img := by
  unfold weightedXOf totalWeightOf
  rw [← List.sum_map_mul_left]
  apply List.sum_le_sum
  intro p hp
  have hw : 0 ≤ getPixelWeight (pixel4rgbq p.2.2) := opaqueWeight_nonneg himg hp
  have hx : p.1 < width := (mem_opaquePixels hp).1
  have hxq : (p.1 : ℚ) ≤ width := by exact_mod_cast le_of_lt hx
  exact mul_le_mul_of_nonneg_right hxq hw

theorem weightedYOf_le (width height : ℕ) (img : ℕ → ℕ → Pixel4)
    (himg : ChannelsLE img) :
    weightedYOf width height img ≤ (height : ℚ) * totalWeightOf width height img := by
  unfold weightedYOf totalWeightOf
  rw [← List.sum_map_mul_left]
  apply List.sum_le_sum
  intro p hp
  have hw : 0 ≤ getPixelWeight (pixel4rgbq p.2.2) := opaqueWeight_nonneg himg hp
  have hy : p.2.1 < height := (mem_opaquePixels hp).2.1
  have hyq : (p.2.1 : ℚ) ≤ height := by exact_mod_cast le_of_lt hy
  exact mul_le_mul_of_nonneg_right hyq hw

theorem dims_pos_of_totalWeight_pos (width height : ℕ) (img : ℕ → ℕ → Pixel4)
    (htw : 0 < totalWeightOf width height img) : 0 < width ∧ 0 < height := by
  by_contra hcon
  have hnil : opaquePixels width height img = [] := by
    rcases not_and_or.mp hcon with hw | hh
    · have hw0 : width = 0 := by omega
      simp [opaquePixels, hw0]
    · have hh0 : height = 0 := by omega
      simp [opaquePixels, hh0]
  rw [totalWeightOf, hnil] at htw
  simp at htw

theorem centerXOf_bounds (width height : ℕ) (img : ℕ → ℕ → Pixel4)
    (himg : ChannelsLE img) :
    0 ≤ centerXOf width height img ∧ centerXOf width height img ≤ 100 := by
  unfold centerXOf
  split_ifs with htw
  · have hw : 0 < width := (dims_pos_of_totalWeight_pos width height img htw).1
    have hwq : (0 : ℚ) < width := by exact_mod_cast hw
    have hX0 : 0 ≤ weightedXOf width height img := weightedXOf_nonneg width height img himg
    have hXle : weightedXOf width height img ≤ width * totalWeightOf width height img :=
      weightedXOf_le width height img himg
    constructor
    · exact mul_nonneg (div_nonneg (div_nonneg hX0 htw.le) hwq.le) (by norm_num)
    · have h1 : weightedXOf width height img / totalWeightOf width height img ≤ width := by
        rw [div_le_iff₀ htw]
        linarith
      have h2 : weightedXOf width height img / totalWeightOf width height img /
          (width : ℚ) ≤ 1 := by
        rw [div_le_one hwq]
        exact h1
      linarith
  · norm_num

theorem centerYOf_bounds (width height : ℕ) (img : ℕ → ℕ → Pixel4)
    (himg : ChannelsLE img) :
    0 ≤ centerYOf width height img ∧ centerYOf width height img ≤ 100 := by
  unfold centerYOf
  split_ifs with htw
  · have hh : 0 < height := (dims_pos_of_totalWeight_pos width height img htw).2
    have hhq : (0 : ℚ) < height := by exact_mod_cast hh
    have hY0 : 0 ≤ weightedYOf width height img := weightedYOf_nonneg width height img himg
    have hYle : weightedYOf width height img ≤ height * totalWeightOf width height img :=
      weightedYOf_le width height img himg
    constructor
    · exact mul_nonneg (div_nonneg (div_nonneg hY0 htw.le) hhq.le) (by norm_num)
    · have h1 : weightedYOf width height img / totalWeightOf width height img ≤ height := by
        rw [div_le_iff₀ htw]
        linarith
      have h2 : weightedYOf width height img / totalWeightOf width height img /
          (height : ℚ) ≤ 1 := by
        rw [div_le_one hhq]
        exact h1
      linarith
  · norm_num

/-- Claim C8 (amended): the center of mass always lies within [0,100]²,
and it equals (50,50) whenever the total weight is zero — in particular
for an empty opaque pixel set; under merely uniform (positive) weight it
is the mean pixel position normalized, which need not be (50,50). -/
theorem c8_amended_centerOfMass (width height : ℕ) (img : ℕ → ℕ → Pixel4)
    (himg : ChannelsLE img) :
    (0 ≤ (analyzeVisualWeight width height img).centerOfMass.1 ∧
     (analyzeVisualWeight width height img).centerOfMass.1 ≤ 100 ∧
     0 ≤ (analyzeVisualWeight width height img).centerOfMass.2 ∧
     (analyzeVisualWeight width height img).centerOfMass.2 ≤ 100) ∧
    (totalWeightOf width height img = 0 →
      (analyzeVisualWeight width height img).centerOfMass = (50, 50)) := by
  have hx := centerXOf_bounds width height img himg
  have hy := centerYOf_bounds width height img himg
  constructor
  · exact ⟨hx.1, hx.2, hy.1, hy.2⟩
  · intro htw
    have hcx : centerXOf width height img = 50 := by
      rw [centerXOf, if_neg]
      rw [htw]
      exact lt_irrefl 0
    have hcy : centerYOf width height img = 50 := by
      rw [centerYOf, if_neg]
      rw [htw]
      exact lt_irrefl 0
    show (centerXOf width height img, centerYOf width height img) = (50, 50)
    rw [hcx, hcy]

/-- Claim C8, counterexample: on the 1×1 opaque black image every opaque
pixel trivially has identical weight, yet the center of mass is (0,0),
not (50,50): under uniform weight the center is the mean pixel position
normalized, not the image center. -/
theorem c8_counterexample :
    (∀ p ∈ opaquePixels 1 1 c8Img, ∀ q ∈ opaquePixels 1 1 c8Img,
      getPixelWeight (pixel4rgbq p.2.2) = getPixelWeight (pixel4rgbq q.2.2)) ∧
    (analyzeVisualWeight 1 1 c8Img).centerOfMass = (0, 0) ∧
    (analyzeVisualWeight 1 1 c8Img).centerOfMass ≠ (50, 50) := by
  have hop : opaquePixels 1 1 c8Img = [(0, 0, { r := 0, g := 0, b := 0, a := 255 })] := by
    decide
  have hwt : getPixelWeight (pixel4rgbq ({ r := 0, g := 0, b := 0, a := 255 } : Pixel4)) =
      7/10 := by
    simp only [getPixelWeight, pixel4rgbq, rgbToHsl]
    norm_num [jsRound]
  have htw : totalWeightOf 1 1 c8Img = 7/10 := by
    rw [totalWeightOf, hop]
    simp [hwt]
  have hwx : weightedXOf 1 1 c8Img = 0 := by
    rw [weightedXOf, hop]
    simp
  have hwy : weightedYOf 1 1 c8Img = 0 := by
    rw [weightedYOf, hop]
    simp
  have hcx : centerXOf 1 1 c8Img = 0 := by
    rw [centerXOf, if_pos (by rw [htw]; norm_num), hwx, htw]
    norm_num
  have hcy : centerYOf 1 1 c8Img = 0 := by
    rw [centerYOf, if_pos (by rw [htw]; norm_num), hwy, htw]
    norm_num
  refine ⟨?_, ?_, ?_⟩
  · intro p hp q hq
    rw [hop] at hp hq
    simp only [List.mem_singleton] at hp hq
    rw [hp, hq]
  · show (centerXOf 1 1 c8Img, centerYOf 1 1 c8Img) = (0, 0)
    rw [hcx, hcy]
  · show (centerXOf 1 1 c8Img, centerYOf 1 1 c8Img) ≠ (50, 50)
    rw [hcx, hcy]
    intro hcon
    have := congrArg Prod.fst hcon
    norm_num at this

/-- Witness for C8 (amended) on a fully transparent 1×1 image: zero total
weight and centered center of mass. -/
theorem c8_amended_witness :
    ChannelsLE transparentImg ∧
    totalWeightOf 1 1 transparentImg = 0 ∧
    (analyzeVisualWeight 1 1 transparentImg).centerOfMass = (50, 50) := by
  have hch : ChannelsLE transparentImg :=
    fun _ _ => ⟨Nat.zero_le _, Nat.zero_le _, Nat.zero_le _⟩
  have hnil : opaquePixels 1 1 transparentImg = [] := by
    simp [opaquePixels, transparentImg]
  have htw : totalWeightOf 1 1 transparentImg = 0 := by
    rw [totalWeightOf, hnil]
    rfl
  exact ⟨hch, htw, (c8_amended_centerOfMass 1 1 transparentImg hch).2 htw⟩

/-! ## Zone system (`analyzeZoneSystem`) -/

theorem assignClusterAux_lt (p : ℚ × ℚ × ℚ) :
    ∀ (cs : List (ℚ × ℚ × ℚ)) (i : ℕ) (minDist : Option ℚ) (best : ℕ),
    best < i → assignClusterAux p cs i minDist best < i + cs.length := by
  intro cs
  induction cs with
  | nil =>
    intro i minDist best h
    simpa [assignClusterAux] using h
  | cons c rest ih =>
    intro i minDist best h
    show assignClusterAux p (c :: rest) i minDist best < i + (rest.length + 1)
    cases minDist with
    | none =>
      simp only [assignClusterAux]
      have h2 := ih (i + 1) (some (colorDistanceSq p c)) i (by omega)
      omega
    | some m =>
      simp only [assignClusterAux]
      by_cases hd : colorDistanceSq p c < m
      · rw [if_pos hd]
        have h2 := ih (i + 1) (some (colorDistanceSq p c)) i (by omega)
        omega
      · rw [if_neg hd]
        have h2 := ih (i + 1) (some m) best (by omega)
        omega

theorem assignCluster_lt (cs : List (ℚ × ℚ × ℚ)) (hne : cs ≠ []) (p : ℚ × ℚ × ℚ) :
    assignCluster cs p < cs.length := by
  match cs with
  | [] => exact absurd rfl hne
  | c :: rest =>
    show assignClusterAux p (c :: rest) 0 none 0 < rest.length + 1
    simp only [assignClusterAux]
    have h2 := assignClusterAux_lt p rest (0 + 1) (some (colorDistanceSq p c)) 0 (by omega)
    omega

theorem assignClusters_length (pixels : List (ℕ × ℕ × ℕ)) (cs : List (ℚ × ℚ × ℚ)) :
    (assignClusters pixels cs).length = pixels.length := by
  simp [assignClusters]

theorem assignClusters_bound (pixels : List (ℕ × ℕ × ℕ)) (cs : List (ℚ × ℚ × ℚ))
    (hne : cs ≠ []) : ∀ a ∈ assignClusters pixels cs, a < cs.length := by
  intro a ha
  simp only [assignClusters, List.mem_map] at ha
  obtain ⟨px, hpx, rfl⟩ := ha
  exact assignCluster_lt cs hne _

theorem updateCentroids_length (pixels : List (ℕ × ℕ × ℕ)) (assignments : List ℕ) (k : ℕ) :
    (updateCentroids pixels assignments k).length = k := by
  simp [updateCentroids]

theorem kmeansLoop_spec (pixels : List (ℕ × ℕ × ℕ)) :
    ∀ (fuel : ℕ) (cs : List (ℚ × ℚ × ℚ)), cs.length = K_CLUSTERS →
    (kmeansLoop pixels fuel cs).1.length = K_CLUSTERS ∧
    (kmeansLoop pixels fuel cs).2.length = pixels.length ∧
    (∀ a ∈ (kmeansLoop pixels fuel cs).2, a < K_CLUSTERS) := by
  intro fuel
  induction fuel with
  | zero =>
    intro cs hcs
    have hne : cs ≠ [] := by
      intro hnil
      rw [hnil] at hcs
      simp [K_CLUSTERS] at hcs
    simp only [kmeansLoop]
    split_ifs with hconv
    · exact ⟨hcs, assignClusters_length pixels cs,
        fun a ha => hcs ▸ assignClusters_bound pixels cs hne a ha⟩
    · exact ⟨updateCentroids_length pixels _ _, assignClusters_length pixels cs,
        fun a ha => hcs ▸ assignClusters_bound pixels cs hne a ha⟩
  | succ f ih =>
    intro cs hcs
    have hne : cs ≠ [] := by
      intro hnil
      rw [hnil] at hcs
      simp [K_CLUSTERS] at hcs
    simp only [kmeansLoop]
    split_ifs with hconv
    · exact ⟨hcs, assignClusters_length pixels cs,
        fun a ha => hcs ▸ assignClusters_bound pixels cs hne a ha⟩
    · exact ih (updateCentroids pixels (assignClusters pixels cs) K_CLUSTERS)
        (updateCentroids_length pixels _ _)

theorem list_sum_map_add {α : Type} (l : List α) (f g : α → ℕ) :
    (l.map (fun x => f x + g x)).sum = (l.map f).sum + (l.map g).sum := by
  induction l with
  | nil => simp
  | cons a t ih =>
    simp only [List.map_cons, List.sum_cons, ih]
    omega

theorem sum_map_indicator {k a : ℕ} (ha : a < k) :
    ((List.range k).map (fun j => if a = j then (1 : ℕ) else 0)).sum = 1 := by
  induction k with
  | zero => omega
  | succ n ih =>
    rw [List.range_succ, List.map_append, List.sum_append]
    by_cases han : a < n
    · rw [ih han]
      have hne : ¬ a = n := by omega
      simp [hne]
    · have han2 : a = n := by omega
      subst han2
      have h0 : ((List.range a).map (fun j => if a = j then (1 : ℕ) else 0)).sum = 0 := by
        apply List.sum_eq_zero
        intro x hx
        simp only [List.mem_map, List.mem_range] at hx
        obtain ⟨j, hj, rfl⟩ := hx
        have hne : ¬ a = j := by omega
        simp [hne]
      simp [h0]

theorem sum_range_count (k : ℕ) : ∀ (l : List ℕ), (∀ a ∈ l, a < k) →
    ((List.range k).map (fun j => l.count j)).sum = l.length := by
  intro l
  induction l with
  | nil =>
    intro _
    simp
  | cons a t ih =>
    intro hbound
    have ha : a < k := hbound a (List.mem_cons_self a t)
    have ht : ∀ x ∈ t, x < k := fun x hx => hbound x (List.mem_cons_of_mem a hx)
    have hcc : ∀ j ∈ List.range k, (a :: t).count j = t.count j + if a = j then 1 else 0 := by
      intro j _
      rw [List.count_cons]
      by_cases hja : a = j
      · simp [hja]
      · simp [hja, Ne.symm hja]
    rw [List.map_congr_left hcc, list_sum_map_add, ih ht, sum_map_indicator ha]
    simp

theorem mergeOne_count (c : ColorSwatch) (close : List ColorSwatch) :
    (mergeOne c close).count = c.count + (close.map (fun d => d.count)).sum := by
  simp only [mergeOne]
  split_ifs with h
  · rfl
  · omega

theorem sum_map_filter_not_add {α : Type} (p : α → Bool) (f : α → ℕ) (l : List α) :
    ((l.filter p).map f).sum + ((l.filter (not ∘ p)).map f).sum = (l.map f).sum := by
  induction l with
  | nil => simp
  | cons a t ih =>
    cases hpa : p a <;>
      simp [List.filter_cons, hpa, Function.comp] <;>
      omega

theorem mergeSimilarColors_countSum_aux (minDistSq : ℚ) :
    ∀ (n : ℕ) (colors : List ColorSwatch), colors.length ≤ n →
    ((mergeSimilarColors colors minDistSq).map (fun c => c.count)).sum =
    (colors.map (fun c => c.count)).sum := by
  intro n
  induction n with
  | zero =>
    intro colors h
    have hnil : colors = [] := List.eq_nil_of_length_eq_zero (by omega)
    subst hnil
    simp [mergeSimilarColors]
  | succ n ih =>
    intro colors h
    match colors with
    | [] => simp [mergeSimilarColors]
    | c :: rest =>
      have hpeq2 : (rest.partition
          (fun d => decide (colorDistanceSq (swatchRgbQ c) (swatchRgbQ d) < minDistSq))).2 =
          rest.filter
            (not ∘ fun d => decide (colorDistanceSq (swatchRgbQ c) (swatchRgbQ d) < minDistSq)) := by
        rw [List.partition_eq_filter_filter]
      have hpeq1 : (rest.partition
          (fun d => decide (colorDistanceSq (swatchRgbQ c) (swatchRgbQ d) < minDistSq))).1 =
          rest.filter
            (fun d => decide (colorDistanceSq (swatchRgbQ c) (swatchRgbQ d) < minDistSq)) := by
        rw [List.partition_eq_filter_filter]
      have hlen : (rest.partition
          (fun d => decide (colorDistanceSq (swatchRgbQ c) (swatchRgbQ d) < minDistSq))).2.length
          ≤ n := by
        rw [hpeq2]
        have hlf := List.length_filter_le
          (not ∘ fun d => decide (colorDistanceSq (swatchRgbQ c) (swatchRgbQ d) < minDistSq))
          rest
        simp only [List.length_cons] at h
        omega
      rw [mergeSimilarColors]
      simp only [List.map_cons, List.sum_cons, mergeOne_count]
      rw [ih _ hlen, hpeq2, hpeq1]
      have hsplit := sum_map_filter_not_add
        (fun d => decide (colorDistanceSq (swatchRgbQ c) (swatchRgbQ d) < minDistSq))
        (fun d => d.count) rest
      omega

theorem mergeSimilarColors_countSum (minDistSq : ℚ) (colors : List ColorSwatch) :
    ((mergeSimilarColors colors minDistSq).map (fun c => c.count)).sum =
    (colors.map (fun c => c.count)).sum :=
  mergeSimilarColors_countSum_aux minDistSq colors.length colors le_rfl

theorem filterDistinctGo_acc_mem (minDistSq : ℚ) (targetCount : ℕ) :
    ∀ (l acc : List ColorSwatch), ∀ x ∈ acc, x ∈ filterDistinctGo minDistSq targetCount l acc := by
  intro l
  induction l with
  | nil =>
    intro acc x hx
    simpa [filterDistinctGo] using hx
  | cons c rest ih =>
    intro acc x hx
    simp only [filterDistinctGo]
    set distinct2 := if acc.any
        (fun s => decide (colorDistanceSq (swatchRgbQ c) (swatchRgbQ s) < minDistSq)) then acc
      else acc ++ [c] with hd2
    have hx2 : x ∈ distinct2 := by
      rw [hd2]
      split_ifs
      · exact hx
      · exact List.mem_append_left _ hx
    split_ifs with hstop
    · exact hx2
    · exact ih distinct2 x hx2

theorem head_mem_filterDistinctColors (minDistSq : ℚ) (targetCount : ℕ)
    (c : ColorSwatch) (rest : List ColorSwatch) :
    c ∈ filterDistinctColors (c :: rest) minDistSq targetCount := by
  rw [filterDistinctColors]
  simp only [filterDistinctGo, List.any_nil, Bool.false_eq_true, if_false,
    List.nil_append]
  split_ifs with hstop
  · exact List.mem_singleton.mpr rfl
  · exact filterDistinctGo_acc_mem minDistSq targetCount rest [c] c
      (List.mem_singleton.mpr rfl)

theorem renormalize_counts (colors : List ColorSwatch) :
    (renormalizePercentages colors).map (fun c => c.count) = colors.map (fun c => c.count) := by
  simp [renormalizePercentages]

theorem renormalize_percentage_mem (colors : List ColorSwatch) {c : ColorSwatch}
    (hc : c ∈ renormalizePercentages colors) :
    c.percentage = (c.count : ℚ) / (((colors.map (fun e => e.count)).sum : ℕ) : ℚ) * 100 := by
  simp only [renormalizePercentages, List.mem_map] at hc
  obtain ⟨d, hd, rfl⟩ := hc
  rfl

theorem sum_map_div_mul (l : List ColorSwatch) (T : ℚ) :
    (l.map (fun c => (c.count : ℚ) / T * 100)).sum =
    ((l.map (fun c => (c.count : ℚ))).sum) / T * 100 := by
  induction l with
  | nil => simp
  | cons a t ih =>
    simp only [List.map_cons, List.sum_cons, ih]
    ring

theorem renormalize_sum_percent (colors : List ColorSwatch)
    (hpos : 0 < (colors.map (fun c => c.count)).sum) :
    ((renormalizePercentages colors).map (fun c => c.percentage)).sum = 100 := by
  have hmap : (renormalizePercentages colors).map (fun c => c.percentage) =
      colors.map (fun c =>
        (c.count : ℚ) / (((colors.map (fun e => e.count)).sum : ℕ) : ℚ) * 100) := by
    simp only [renormalizePercentages, List.map_map]
    rfl
  rw [hmap, sum_map_div_mul]
  have hcast : (colors.map (fun c => (c.count : ℚ))).sum =
      (((colors.map (fun e => e.count)).sum : ℕ) : ℚ) := by
    rw [Nat.cast_list_sum, List.map_map]
    rfl
  rw [hcast]
  have hTpos : (0 : ℚ) < (((colors.map (fun e => e.count)).sum : ℕ) : ℚ) := by
    exact_mod_cast hpos
  rw [div_self (ne_of_gt hTpos)]
  norm_num

theorem percentageDescending_trans : ∀ (a b c : ColorSwatch),
    percentageDescending a b → percentageDescending b c → percentageDescending a c := by
  intro a b c hab hbc
  simp only [percentageDescending, decide_eq_true_eq] at hab hbc ⊢
  exact le_trans hbc hab

theorem percentageDescending_total : ∀ (a b : ColorSwatch),
    percentageDescending a b || percentageDescending b a := by
  intro a b
  simp only [percentageDescending, Bool.or_eq_true, decide_eq_true_eq]
  exact le_total b.percentage a.percentage

theorem sortByPercentage_perm (l : List ColorSwatch) : (sortByPercentage l).Perm l :=
  List.mergeSort_perm l percentageDescending

theorem sortByPercentage_sorted (l : List ColorSwatch) :
    (sortByPercentage l).Pairwise (fun a b => b.percentage ≤ a.percentage) := by
  have hs := List.sorted_mergeSort percentageDescending_trans percentageDescending_total l
  exact hs.imp (fun h => by
    simpa [percentageDescending, decide_eq_true_eq] using h)

theorem sortByPercentage_countSum (l : List ColorSwatch) :
    ((sortByPercentage l).map (fun c => c.count)).sum = (l.map (fun c => c.count)).sum :=
  ((sortByPercentage_perm l).map (fun c => c.count)).sum_eq

theorem kMeansColors_countSum (init : List (ℚ × ℚ × ℚ)) (pixels : List (ℕ × ℕ × ℕ))
    (hinit : init.length = K_CLUSTERS) :
    ((kMeansColors init pixels).map (fun c => c.count)).sum = pixels.length := by
  obtain ⟨hc, ha, hb⟩ := kmeansLoop_spec pixels (MAX_ITERATIONS - 1) init hinit
  simp only [kMeansColors, List.map_map]
  have hfun : ((fun c : ColorSwatch => c.count) ∘ (fun cn : (ℚ × ℚ × ℚ) × ℕ =>
      ({ rgb := (jsRound cn.1.1, jsRound cn.1.2.1, jsRound cn.1.2.2),
         hex := rgbToHex (jsRound cn.1.1).toNat (jsRound cn.1.2.1).toNat
           (jsRound cn.1.2.2).toNat,
         percentage := (cn.2 : ℚ) / (pixels.length : ℚ) * 100,
         count := cn.2 } : ColorSwatch))) = Prod.snd := rfl
  rw [hfun]
  rw [List.map_snd_zip]
  · rw [sum_range_count K_CLUSTERS _ hb]
    exact ha
  · simp [hc]

theorem pipeline_tail_spec (colors : List ColorSwatch) (N : ℕ) (hN : 0 < N)
    (hsum : (colors.map (fun c => c.count)).sum = N) :
    ((renormalizePercentages (filterDistinctColors
        (sortByPercentage (renormalizePercentages colors)) 3600 5)).map
      (fun c => c.percentage)).sum = 100 ∧
    (∀ c ∈ renormalizePercentages (filterDistinctColors
        (sortByPercentage (renormalizePercentages colors)) 3600 5),
      c.percentage = (c.count : ℚ) /
        ((((filterDistinctColors (sortByPercentage (renormalizePercentages colors))
          3600 5).map (fun e => e.count)).sum : ℕ) : ℚ) * 100) := by
  have h3 : ((renormalizePercentages colors).map (fun c => c.count)).sum = N := by
    rw [renormalize_counts]
    exact hsum
  have h4 : ((sortByPercentage (renormalizePercentages colors)).map (fun c => c.count)).sum
      = N := by
    rw [sortByPercentage_countSum]
    exact h3
  have hNq : (0 : ℚ) < ((colors.map (fun e => e.count)).sum : ℕ) := by
    rw [hsum]
    exact_mod_cast hN
  obtain ⟨cpos, hcposmem, hcpos⟩ :
      ∃ c ∈ sortByPercentage (renormalizePercentages colors), 0 < c.count := by
    by_contra hcon
    push_neg at hcon
    have hz : ((sortByPercentage (renormalizePercentages colors)).map
        (fun c => c.count)).sum = 0 := by
      apply List.sum_eq_zero
      intro x hx
      simp only [List.mem_map] at hx
      obtain ⟨e, he, rfl⟩ := hx
      have hce := hcon e he
      omega
    omega
  have hformula : ∀ x ∈ sortByPercentage (renormalizePercentages colors),
      x.percentage = (x.count : ℚ) / ((colors.map (fun e => e.count)).sum : ℕ) * 100 := by
    intro x hx
    have hxr1 : x ∈ renormalizePercentages colors := (sortByPercentage_perm _).subset hx
    exact renormalize_percentage_mem colors hxr1
  obtain ⟨c0, t, hs2⟩ : ∃ c0 t, sortByPercentage (renormalizePercentages colors) = c0 :: t := by
    match hm : sortByPercentage (renormalizePercentages colors) with
    | [] =>
      rw [hm] at hcposmem
      exact absurd hcposmem (List.not_mem_nil cpos)
    | c0 :: t => exact ⟨c0, t, rfl⟩
  have hsorted := sortByPercentage_sorted (renormalizePercentages colors)
  rw [hs2] at hsorted
  have hge : cpos.percentage ≤ c0.percentage := by
    rw [hs2] at hcposmem
    rcases List.mem_cons.mp hcposmem with heq | hmem
    · rw [heq]
    · exact (List.pairwise_cons.mp hsorted).1 cpos hmem
  have hcpospos : 0 < cpos.percentage := by
    rw [hformula cpos hcposmem]
    have hcq : (0 : ℚ) < (cpos.count : ℚ) := by exact_mod_cast hcpos
    positivity
  have hc0pos : 0 < c0.percentage := lt_of_lt_of_le hcpospos hge
  have hc0mem : c0 ∈ sortByPercentage (renormalizePercentages colors) := by
    rw [hs2]
    exact List.mem_cons_self c0 t
  have hc0count : 0 < c0.count := by
    by_contra h0
    push_neg at h0
    have hz : c0.count = 0 := by omega
    have := hformula c0 hc0mem
    rw [hz] at this
    simp at this
    rw [this] at hc0pos
    exact lt_irrefl 0 hc0pos
  have hc0d : c0 ∈ filterDistinctColors
      (sortByPercentage (renormalizePercentages colors)) 3600 5 := by
    rw [hs2]
    exact head_mem_filterDistinctColors 3600 5 c0 t
  have hT : 0 < ((filterDistinctColors
      (sortByPercentage (renormalizePercentages colors)) 3600 5).map
        (fun c => c.count)).sum := by
    have hle : c0.count ≤ ((filterDistinctColors
        (sortByPercentage (renormalizePercentages colors)) 3600 5).map
          (fun c => c.count)).sum :=
      List.single_le_sum (fun x _ => Nat.zero_le x) _
        (List.mem_map_of_mem (fun c => c.count) hc0d)
    omega
  constructor
  · exact renormalize_sum_percent _ hT
  · intro c hc
    exact renormalize_percentage_mem _ hc

/-- Claim C1: for any nonempty sampled pixel set (and any initial
centroid list of the seeded size), the swatch list returned by the
quantizer has percentages summing to exactly 100 in exact arithmetic
(hence within the ±0.01 floating tolerance), and every returned
percentage is re-derived as the swatch's retained count over the retained
subset's total count. -/
theorem c1_quantize_percentage_sum (init : List (ℚ × ℚ × ℚ)) (pixels : List (ℕ × ℕ × ℕ))
    (hinit : init.length = K_CLUSTERS) (hne : pixels ≠ []) :
    ((kMeansWithInit init pixels).map (fun c => c.percentage)).sum = 100 ∧
    |((kMeansWithInit init pixels).map (fun c => c.percentage)).sum - 100| ≤ 1/100 ∧
    (∀ c ∈ kMeansWithInit init pixels,
      c.percentage = (c.count : ℚ) /
        ((((kMeansWithInit init pixels).map (fun e => e.count)).sum : ℕ) : ℚ) * 100) := by
  have hN : 0 < pixels.length := List.length_pos.mpr hne
  have h2 : ((mergeSimilarColors (sortByPercentage (kMeansColors init pixels)) 1296).map
      (fun c => c.count)).sum = pixels.length := by
    rw [mergeSimilarColors_countSum, sortByPercentage_countSum,
      kMeansColors_countSum init pixels hinit]
  have hout : kMeansWithInit init pixels =
      renormalizePercentages (filterDistinctColors (sortByPercentage (renormalizePercentages
        (mergeSimilarColors (sortByPercentage (kMeansColors init pixels)) 1296))) 3600 5) := by
    rw [kMeansWithInit, if_neg hne]
  obtain ⟨hsum100, hmem⟩ := pipeline_tail_spec
    (mergeSimilarColors (sortByPercentage (kMeansColors init pixels)) 1296)
    pixels.length hN h2
  have houtcounts : ((kMeansWithInit init pixels).map (fun e => e.count)).sum =
      ((filterDistinctColors (sortByPercentage (renormalizePercentages
        (mergeSimilarColors (sortByPercentage (kMeansColors init pixels)) 1296))) 3600 5).map
          (fun e => e.count)).sum := by
    rw [hout, renormalize_counts]
  refine ⟨?_, ?_, ?_⟩
  · rw [hout]
    exact hsum100
  · rw [hout, hsum100]
    norm_num
  · intro c hc
    rw [houtcounts]
    rw [hout] at hc
    exact hmem c hc

/-- Witness for C1 at the single-black-pixel sample. -/
theorem c1_quantize_percentage_sum_witness :
    c1Init.length = K_CLUSTERS ∧ c1Pixels ≠ [] ∧
    (((kMeansWithInit c1Init c1Pixels).map (fun c => c.percentage)).sum = 100 ∧
     |((kMeansWithInit c1Init c1Pixels).map (fun c => c.percentage)).sum - 100| ≤ 1/100 ∧
     (∀ c ∈ kMeansWithInit c1Init c1Pixels,
       c.percentage = (c.count : ℚ) /
         ((((kMeansWithInit c1Init c1Pixels).map (fun e => e.count)).sum : ℕ) : ℚ) * 100)) :=
  ⟨rfl, by decide, c1_quantize_percentage_sum c1Init c1Pixels rfl (by decide)⟩

theorem sampleStride_subset_aux : ∀ (n : ℕ) (l : List Pixel4), l.length ≤ n →
    ∀ p ∈ sampleStride l, p ∈ l := by
  intro n
  induction n with
  | zero =>
    intro l h p hp
    have hnil : l = [] := List.eq_nil_of_length_eq_zero (by omega)
    subst hnil
    simp [sampleStride] at hp
  | succ n ih =>
    intro l h p hp
    match l with
    | [] => simp [sampleStride] at hp
    | q :: rest =>
      rw [sampleStride] at hp
      rcases List.mem_cons.mp hp with heq | hmem
      · rw [heq]
        exact List.mem_cons_self q rest
      · have hlen : (rest.drop 3).length ≤ n := by
          simp only [List.length_cons] at h
          simp only [List.length_drop]
          omega
        exact List.mem_cons_of_mem q
          (List.drop_subset 3 rest (ih (rest.drop 3) hlen p hmem))

theorem sampleStride_subset (l : List Pixel4) : ∀ p ∈ sampleStride l, p ∈ l :=
  sampleStride_subset_aux l.length l le_rfl

theorem opaqueSampled_nil (data : List Pixel4) (hdata : ∀ p ∈ data, p.a ≤ 128) :
    opaqueSampled data = [] := by
  rw [opaqueSampled, List.filter_eq_nil_iff]
  intro p hp
  have hle := hdata p (sampleStride_subset data p hp)
  simp only [decide_eq_true_eq]
  omega

theorem opaquePixels_nil (width height : ℕ) (img : ℕ → ℕ → Pixel4)
    (himg : ∀ x y, (img x y).a ≤ 128) : opaquePixels width height img = [] := by
  rw [opaquePixels]
  apply List.flatMap_eq_nil_iff.mpr
  intro y _
  apply List.filterMap_eq_nil_iff.mpr
  intro x _
  rw [if_neg]
  have := himg x y
  omega

/-- Claim C6, counterexample: on a fully transparent image the quadrant
percentages divide by the zero total weight unguarded — the JavaScript
output is `NaN` (`none` here), not a defined default value, so not every
division by an aggregate weight is guarded. -/
theorem c6_counterexample :
    (analyzeVisualWeight 1 1 transparentImg).quadrantTopLeft = none ∧
    (analyzeVisualWeight 1 1 transparentImg).quadrantTopRight = none ∧
    (analyzeVisualWeight 1 1 transparentImg).quadrantBottomLeft = none ∧
    (analyzeVisualWeight 1 1 transparentImg).quadrantBottomRight = none := by
  have hnil : opaquePixels 1 1 transparentImg = [] :=
    opaquePixels_nil 1 1 transparentImg (fun _ _ => by simp [transparentImg])
  have htw : totalWeightOf 1 1 transparentImg = 0 := by
    rw [totalWeightOf, hnil]
    rfl
  refine ⟨?_, ?_, ?_, ?_⟩ <;>
    simp [analyzeVisualWeight, quadrantPercent, htw]

/-- Claim C6 (amended): on an empty or fully-transparent sampled set the
quantizer returns the empty swatch list, the zone histogram is
zero-filled, and the weight analyzer's guarded outputs default (center of
mass (50,50), balances 50, zero heatmap, "Centered") — but the four
quadrant percentages divide by the zero total weight unguarded and are
NaN (`none`), not defined defaults. -/
theorem c6_amended_defaults (data : List Pixel4) (hdata : ∀ p ∈ data, p.a ≤ 128)
    (init : List (ℚ × ℚ × ℚ)) (width height : ℕ) (img : ℕ → ℕ → Pixel4)
    (himg : ∀ x y, (img x y).a ≤ 128) :
    kMeansWithInit init (getPixelDataSampled data) = [] ∧
    (∀ zb ∈ zoneDataOf data, zb.count = 0 ∧ zb.percentage = 0) ∧
    (analyzeVisualWeight width height img).centerOfMass = (50, 50) ∧
    (analyzeVisualWeight width height img).horizontalBalance = 50 ∧
    (analyzeVisualWeight width height img).verticalBalance = 50 ∧
    (analyzeVisualWeight width height img).heatmap = [[0, 0, 0], [0, 0, 0], [0, 0, 0]] ∧
    (analyzeVisualWeight width height img).balanceType = "Centered" ∧
    (analyzeVisualWeight width height img).quadrantTopLeft = none ∧
    (analyzeVisualWeight width height img).quadrantTopRight = none ∧
    (analyzeVisualWeight width height img).quadrantBottomLeft = none ∧
    (analyzeVisualWeight width height img).quadrantBottomRight = none := by
  have hsampled : getPixelDataSampled data = [] := by
    rw [getPixelDataSampled, opaqueSampled_nil data hdata]
    rfl
  have hnil : opaquePixels width height img = [] := opaquePixels_nil width height img himg
  have htw : totalWeightOf width height img = 0 := by
    rw [totalWeightOf, hnil]
    rfl
  have hcx : centerXOf width height img = 50 := by
    rw [centerXOf, if_neg]
    rw [htw]
    exact lt_irrefl 0
  have hcy : centerYOf width height img = 50 := by
    rw [centerYOf, if_neg]
    rw [htw]
    exact lt_irrefl 0
  have hqtl : quadTopLeftOf width height img = 0 := by
    rw [quadTopLeftOf, hnil]
    rfl
  have hqtr : quadTopRightOf width height img = 0 := by
    rw [quadTopRightOf, hnil]
    rfl
  have hqbl : quadBottomLeftOf width height img = 0 := by
    rw [quadBottomLeftOf, hnil]
    rfl
  have hqbr : quadBottomRightOf width height img = 0 := by
    rw [quadBottomRightOf, hnil]
    rfl
  have hhb : horizontalBalanceOf width height img = 50 := by
    rw [horizontalBalanceOf, hqtl, hqbl]
    norm_num
  have hvb : verticalBalanceOf width height img = 50 := by
    rw [verticalBalanceOf, hqtl, hqtr]
    norm_num
  have hcell : ∀ gx gy, gridCellWeightOf width height img gx gy = 0 := by
    intro gx gy
    rw [gridCellWeightOf, hnil]
    rfl
  have hmax : maxGridWeightOf width height img = 0 := by
    rw [maxGridWeightOf]
    simp only [hcell]
    rfl
  have hheat : heatmapOf width height img = [[0, 0, 0], [0, 0, 0], [0, 0, 0]] := by
    rw [heatmapOf]
    simp only [hmax, lt_irrefl, if_false]
    rfl
  have hbt : balanceTypeOf width height img =
      ("Centered", "Weight evenly distributed from center") := by
    rw [balanceTypeOf, centerDevSqOf, hcx, hcy, hhb, hvb]
    norm_num
  refine ⟨?_, ?_, ?_, hhb, hvb, hheat, ?_, ?_, ?_, ?_, ?_⟩
  · rw [hsampled, kMeansWithInit, if_pos rfl]
  · intro zb hzb
    simp only [zoneDataOf, List.mem_map, List.mem_range] at hzb
    obtain ⟨z, hz, rfl⟩ := hzb
    have hzc : zoneCount data z = 0 := by
      rw [zoneCount, opaqueSampled_nil data hdata]
      rfl
    have hlen0 : (opaqueSampled data).length = 0 := by
      rw [opaqueSampled_nil data hdata]
      rfl
    constructor
    · exact hzc
    · simp only [hlen0, lt_irrefl, if_false]
  · show (centerXOf width height img, centerYOf width height img) = (50, 50)
    rw [hcx, hcy]
  · show (balanceTypeOf width height img).1 = "Centered"
    rw [hbt]
  · show quadrantPercent (quadTopLeftOf width height img) (totalWeightOf width height img)
      = none
    rw [htw, quadrantPercent, if_pos rfl]
  · show quadrantPercent (quadTopRightOf width height img) (totalWeightOf width height img)
      = none
    rw [htw, quadrantPercent, if_pos rfl]
  · show quadrantPercent (quadBottomLeftOf width height img) (totalWeightOf width height img)
      = none
    rw [htw, quadrantPercent, if_pos rfl]
  · show quadrantPercent (quadBottomRightOf width height img) (totalWeightOf width height img)
      = none
    rw [htw, quadrantPercent, if_pos rfl]

/-- Witness for C6 (amended) at a fully transparent one-pixel image. -/
theorem c6_amended_defaults_witness :
    (∀ p ∈ c6Data, p.a ≤ 128) ∧
    kMeansWithInit [] (getPixelDataSampled c6Data) = [] ∧
    (∀ zb ∈ zoneDataOf c6Data, zb.count = 0 ∧ zb.percentage = 0) ∧
    (analyzeVisualWeight 1 1 transparentImg).centerOfMass = (50, 50) ∧
    (analyzeVisualWeight 1 1 transparentImg).heatmap =
      [[0, 0, 0], [0, 0, 0], [0, 0, 0]] ∧
    (analyzeVisualWeight 1 1 transparentImg).balanceType = "Centered" := by
  have hdata : ∀ p ∈ c6Data, p.a ≤ 128 := by
    intro p hp
    simp only [c6Data, List.mem_singleton] at hp
    rw [hp]
    decide
  have himg : ∀ x y, (transparentImg x y).a ≤ 128 := fun _ _ => Nat.zero_le 128
  obtain ⟨h1, h2, h3, h4, h5, h6, h7, h8, h9, h10, h11⟩ :=
    c6_amended_defaults c6Data hdata [] 1 1 transparentImg himg
  exact ⟨hdata, h1, h2, h3, h6, h7⟩

/-! ## Style matcher (`matchCinematographerStyle`) -/

theorem satPartOf_bounds (analysis : AnalysisInput) (profile : StyleProfile) :
    0 ≤ (satPartOf analysis profile).1 ∧
    (satPartOf analysis profile).1 ≤ 25 * (satPartOf analysis profile).2 := by
  simp only [satPartOf]
  generalize ((analysis.colors.take 3).map (fun c => (c.hsl.getD (0, 0, 0)).2.1)).sum /
      ((min analysis.colors.length 3 : ℕ) : ℚ) = avg
  split_ifs with h1 h2 h3
  · norm_num
  · refine ⟨le_max_left 0 _, ?_⟩
    have hb : max (0 : ℚ) (25 - (profile.saturationRange.1 - avg)) ≤ 25 :=
      max_le (by norm_num) (by linarith)
    simpa using hb
  · refine ⟨le_max_left 0 _, ?_⟩
    have hge : profile.saturationRange.1 ≤ avg := not_lt.mp h3
    have hmaxlt : profile.saturationRange.2 < avg := by
      by_contra hc
      push_neg at hc
      exact h2 ⟨hge, hc⟩
    have hb : max (0 : ℚ) (25 - (avg - profile.saturationRange.2)) ≤ 25 :=
      max_le (by norm_num) (by linarith)
    simpa using hb
  · norm_num

theorem harmonyPartOf_bounds (analysis : AnalysisInput) (profile : StyleProfile) :
    0 ≤ (harmonyPartOf analysis profile).1 ∧
    (harmonyPartOf analysis profile).1 ≤ 25 * (harmonyPartOf analysis profile).2 := by
  unfold harmonyPartOf
  cases hh : analysis.harmony with
  | none => norm_num
  | some hr =>
    simp only []
    split_ifs <;> norm_num

theorem zonePartOf_bounds (analysis : AnalysisInput) (profile : StyleProfile) :
    0 ≤ (zonePartOf analysis profile).1 ∧
    (zonePartOf analysis profile).1 ≤ 25 * (zonePartOf analysis profile).2 := by
  unfold zonePartOf
  cases hz : analysis.zoneData with
  | none => norm_num
  | some zr =>
    simp only []
    split_ifs <;> norm_num

theorem huePartOf_bounds (analysis : AnalysisInput) (profile : StyleProfile) :
    0 ≤ (huePartOf analysis profile).1 ∧
    (huePartOf analysis profile).1 ≤ 25 * (huePartOf analysis profile).2 := by
  unfold huePartOf
  cases hc : analysis.colors with
  | nil => norm_num
  | cons c0 rest =>
    cases hhsl : c0.hsl with
    | none =>
      simp only [hhsl]
      norm_num
    | some hsl =>
      simp only [hhsl]
      split_ifs <;> norm_num

theorem calculateMatchScore_bounds (analysis : AnalysisInput) (profile : StyleProfile) :
    0 ≤ calculateMatchScore analysis profile ∧ calculateMatchScore analysis profile ≤ 100 := by
  obtain ⟨hs1, hs2⟩ := satPartOf_bounds analysis profile
  obtain ⟨hh1, hh2⟩ := harmonyPartOf_bounds analysis profile
  obtain ⟨hz1, hz2⟩ := zonePartOf_bounds analysis profile
  obtain ⟨hu1, hu2⟩ := huePartOf_bounds analysis profile
  rw [calculateMatchScore]
  split_ifs with hf
  · have hfq : (0 : ℚ) < (((satPartOf analysis profile).2 + (harmonyPartOf analysis profile).2 +
        (zonePartOf analysis profile).2 + (huePartOf analysis profile).2 : ℕ) : ℚ) := by
      exact_mod_cast hf
    constructor
    · apply jsRound_nonneg
      apply mul_nonneg _ (by norm_num)
      apply div_nonneg (by linarith) hfq.le
    · apply jsRound_le_of_le
      rw [div_mul_eq_mul_div, div_le_iff₀ hfq]
      push_cast
      nlinarith
  · norm_num

theorem scoreDescending_trans : ∀ (a b c : MatchResult),
    scoreDescending a b → scoreDescending b c → scoreDescending a c := by
  intro a b c hab hbc
  simp only [scoreDescending, decide_eq_true_eq] at hab hbc ⊢
  exact le_trans hbc hab

theorem scoreDescending_total : ∀ (a b : MatchResult),
    scoreDescending a b || scoreDescending b a := by
  intro a b
  simp only [scoreDescending, Bool.or_eq_true, decide_eq_true_eq]
  exact le_total b.matchScore a.matchScore

/-- Claim C9: the matcher returns exactly one result per reference
profile (a permutation of the 8 scored profiles, so the list has length
8), every score lies in [0,100], the list is sorted non-increasing by
score, and ties keep the original profile order (the filter at any given
score equals the unsorted filter). -/
theorem c9_matchStyles (analysis : AnalysisInput) :
    (matchCinematographerStyle analysis).length = 8 ∧
    (matchCinematographerStyle analysis).Perm (scoredProfiles analysis) ∧
    (∀ m ∈ matchCinematographerStyle analysis,
      0 ≤ m.matchScore ∧ m.matchScore ≤ 100) ∧
    (matchCinematographerStyle analysis).Pairwise
      (fun a b => b.matchScore ≤ a.matchScore) ∧
    (∀ s : ℤ, (matchCinematographerStyle analysis).filter (fun m => m.matchScore == s) =
      (scoredProfiles analysis).filter (fun m => m.matchScore == s)) := by
  refine ⟨?_, ?_, ?_, ?_, ?_⟩
  · rw [matchCinematographerStyle, List.length_mergeSort, scoredProfiles,
      List.length_map]
    rfl
  · exact List.mergeSort_perm _ scoreDescending
  · intro m hm
    rw [matchCinematographerStyle, List.mem_mergeSort] at hm
    simp only [scoredProfiles, List.mem_map] at hm
    obtain ⟨p, hp, rfl⟩ := hm
    exact calculateMatchScore_bounds analysis p
  · have hs := List.sorted_mergeSort scoreDescending_trans scoreDescending_total
      (scoredProfiles analysis)
    exact hs.imp (fun h => by
      simpa [scoreDescending, decide_eq_true_eq] using h)
  · intro s
    have hpw : ((scoredProfiles analysis).filter
        (fun m => m.matchScore == s)).Pairwise (fun a b => scoreDescending a b) := by
      apply List.pairwise_of_forall_mem_list
      intro a ha b hb
      have ha2 := (List.mem_filter.mp ha).2
      have hb2 := (List.mem_filter.mp hb).2
      simp only [beq_iff_eq] at ha2 hb2
      simp only [scoreDescending, decide_eq_true_eq, ha2, hb2]
      exact le_refl s
    have hsub : List.Sublist ((scoredProfiles analysis).filter
        (fun m => m.matchScore == s)) (matchCinematographerStyle analysis) := by
      rw [matchCinematographerStyle]
      exact List.sublist_mergeSort scoreDescending_trans scoreDescending_total hpw
        (List.filter_sublist _)
    have hself : (((scoredProfiles analysis).filter
        (fun m => m.matchScore == s)).filter (fun m => m.matchScore == s)) =
        ((scoredProfiles analysis).filter (fun m => m.matchScore == s)) :=
      List.filter_eq_self.mpr (fun a ha => (List.mem_filter.mp ha).2)
    have hsub2 := hsub.filter (fun m => m.matchScore == s)
    rw [hself] at hsub2
    have hperm : ((matchCinematographerStyle analysis).filter
        (fun m => m.matchScore == s)).Perm
        ((scoredProfiles analysis).filter (fun m => m.matchScore == s)) :=
      (List.mergeSort_perm _ scoreDescending).filter _
    exact (hsub2.eq_of_length hperm.length_eq.symm).symm
